import Mathlib

/-!
Verification of the mte-relay-browser client protocol layer.

The TypeScript sources are shallowly embedded: JavaScript `Map` objects become
functions `String → Option α`, arrays become `List`, thrown exceptions become
`Except`, and the external stateful MTE engine (WASM) becomes an explicit
function parameter.  Each definition mirrors one exported function of the
repository; the file/line of the source is noted on the definition.
-/

namespace MteRelay

/-! ## Origin records (src/src/mte/cache/origin-records.ts)

The module keeps a module-level `Map` from origin to `RemoteRecord` plus a
`serversContacted` array.  JavaScript `Map.set` either overwrites or inserts;
we model the map as a function `String → Option RemoteRecord`.  Mutations of a
record retrieved from the map alias the stored record; the embedding makes the
resulting store explicit.
-/

/-- `RemoteRecord.status` field values (origin-records.ts line 4). -/
inductive OriginStatus where
  | pending
  | paired
  | invalid
  | validateNow
deriving DecidableEq, Repr

/-- `RemoteRecord` (origin-records.ts lines 1-6). `clientId` is `null`able. -/
structure RemoteRecord where
  origin : String
  clientId : Option String
  status : OriginStatus
  pairIdQueue : List String
deriving DecidableEq, Repr

/-- The module-level mutable state of origin-records.ts: the `cache` map
(line 8) and the `serversContacted` array (line 9). -/
structure OriginRecordsState where
  cache : String → Option RemoteRecord
  serversContacted : List String

/-- Store update, modelling `cache.set(k, v)`. -/
def mapSet {α : Type} (m : String → Option α) (k : String) (v : α) :
    String → Option α :=
  fun k' => if k' = k then some v else m k'

/-- `createNewRemoteRecord` (origin-records.ts lines 35-49): stores a
`pending` record but returns a distinct record with status `validate-now`. -/
def createNewRemoteRecord (s : OriginRecordsState) (origin : String) :
    RemoteRecord × OriginRecordsState :=
  let record : RemoteRecord := ⟨origin, none, .pending, []⟩
  (⟨origin, none, .validateNow, []⟩,
   { s with cache := mapSet s.cache origin record })

/-- `getRemoteRecordByOrigin` (origin-records.ts lines 12-28). -/
def getRemoteRecordByOrigin (s : OriginRecordsState) (origin : String) :
    RemoteRecord × OriginRecordsState :=
  match s.cache origin with
  | some record => (record, s)
  | none =>
    if origin ∈ s.serversContacted then
      (⟨origin, none, .pending, []⟩, s)
    else
      createNewRemoteRecord
        { s with serversContacted := s.serversContacted ++ [origin] } origin

/-- `setRemoteStatus` (origin-records.ts lines 52-68).  The TypeScript type of
`options.status` only admits `pending`, `paired` and `invalid`; `clientId` is
optional and only written when truthy. -/
def setRemoteStatus (s : OriginRecordsState) (origin : String)
    (status : OriginStatus) (clientId : Option String) :
    RemoteRecord × OriginRecordsState :=
  let (record, s₁) := getRemoteRecordByOrigin s origin
  let record₁ := { record with status := status }
  let record₂ :=
    match clientId with
    | some c => { record₁ with clientId := some c }
    | none => record₁
  (record₂, { s₁ with cache := mapSet s₁.cache origin record₂ })

/-- `addPairIdToQueue` (origin-records.ts lines 73-80): `push` then
`cache.set`. -/
def addPairIdToQueue (s : OriginRecordsState) (origin pairId : String) :
    OriginRecordsState :=
  let (record, s₁) := getRemoteRecordByOrigin s origin
  let record₁ := { record with pairIdQueue := record.pairIdQueue ++ [pairId] }
  { s₁ with cache := mapSet s₁.cache origin record₁ }

/-- `getNextPairIdFromQueue` (origin-records.ts lines 85-97): `shift` the
head, `push` it to the tail, return it.  An empty queue throws
"No ID in queue."; a falsy (empty-string) head also throws, but only after
`shift` has already mutated the record aliased in the cache.  The thrown
paths still carry the state effects performed before the throw. -/
def getNextPairIdFromQueue (s : OriginRecordsState) (origin : String) :
    Except String String × OriginRecordsState :=
  let (record, s₁) := getRemoteRecordByOrigin s origin
  match record.pairIdQueue with
  | [] => (.error "No ID in queue.", s₁)
  | id :: rest =>
    if id = "" then
      let record₁ := { record with pairIdQueue := rest }
      (.error "No ID in queue.",
       { s₁ with cache := mapSet s₁.cache origin record₁ })
    else
      let record₁ := { record with pairIdQueue := rest ++ [id] }
      (.ok id,
       { s₁ with cache := mapSet s₁.cache origin record₁ })

/-- `deleteIdFromQueue` (origin-records.ts lines 102-112): `indexOf` then
`splice(index, 1)`, i.e. remove the first occurrence if present. -/
def deleteIdFromQueue (s : OriginRecordsState) (origin pairId : String) :
    OriginRecordsState :=
  let (record, s₁) := getRemoteRecordByOrigin s origin
  let record₁ := { record with pairIdQueue := record.pairIdQueue.erase pairId }
  { s₁ with cache := mapSet s₁.cache origin record₁ }

/-! ## Origin status store (src/unnamed/part_005, v4 layout)

`getOriginStatus` / `setOriginStatus` keep a per-origin status string in the
generic key/value cache (part_004) under the key `origin-status:<origin>`.
-/

/-- `OriginStatus` of part_005 line 3: the one-shot directive is spelled
`validate` in this version. -/
inductive OriginStatusV4 where
  | paired
  | invalid
  | validate
  | pending
deriving DecidableEq, Repr

/-- part_005 lines 22-24. -/
def originStatusKey (key : String) : String := "origin-status:" ++ key

/-- `getOriginStatus` (part_005 lines 6-14): first observer gets `validate`
back while `pending` is stored for everyone else. -/
def getOriginStatus (cache : String → Option OriginStatusV4) (origin : String) :
    OriginStatusV4 × (String → Option OriginStatusV4) :=
  match cache (originStatusKey origin) with
  | some record => (record, cache)
  | none =>
    (.validate, mapSet cache (originStatusKey origin) .pending)

/-- `setOriginStatus` (part_005 lines 17-20). -/
def setOriginStatus (cache : String → Option OriginStatusV4)
    (origin : String) (status : OriginStatusV4) :
    String → Option OriginStatusV4 :=
  mapSet cache (originStatusKey origin) status

/-! ## Sequences of origin-record operations

The exported API of origin-records.ts consists of the five functions above.
`ClientOp` enumerates one call to any of them; `ClientOp.valid` records the
TypeScript type constraint that `setRemoteStatus` only accepts `pending`,
`paired` or `invalid`. -/

/-- One call to the exported origin-records API. -/
inductive ClientOp where
  | getRecord (o : String)
  | setStatus (o : String) (st : OriginStatus) (cid : Option String)
  | addPair (o p : String)
  | getNext (o : String)
  | deleteId (o p : String)

/-- The TypeScript signature of `setRemoteStatus` excludes `validate-now`. -/
def ClientOp.valid : ClientOp → Prop
  | .setStatus _ st _ => st ≠ .validateNow
  | _ => True

/-- State effect of one API call. -/
def applyOp (s : OriginRecordsState) : ClientOp → OriginRecordsState
  | .getRecord o => (getRemoteRecordByOrigin s o).2
  | .setStatus o st cid => (setRemoteStatus s o st cid).2
  | .addPair o p => addPairIdToQueue s o p
  | .getNext o => (getNextPairIdFromQueue s o).2
  | .deleteId o p => deleteIdFromQueue s o p

/-- State effect of a sequence of API calls. -/
def applyOps (s : OriginRecordsState) (ops : List ClientOp) :
    OriginRecordsState :=
  ops.foldl applyOp s

/-- Result of the `m`-th (0-indexed) call in a run of successive
`getNextPairIdFromQueue` acquisitions. -/
def acquireIter (s : OriginRecordsState) (origin : String) :
    Nat → Except String String × OriginRecordsState
  | 0 => getNextPairIdFromQueue s origin
  | n + 1 => acquireIter (getNextPairIdFromQueue s origin).2 origin n

/-- The pairId returned by the `m`-th successive acquisition. -/
def acquiredAt (s : OriginRecordsState) (origin : String) (m : Nat) :
    Except String String :=
  (acquireIter s origin m).1

theorem mapSet_self {α : Type} (m : String → Option α) (k : String) (v : α) :
    mapSet m k v k = some v := by
  simp [mapSet]

theorem mapSet_ne {α : Type} (m : String → Option α) (k k' : String) (v : α)
    (h : k' ≠ k) : mapSet m k v k' = m k' := by
  simp [mapSet, h]

theorem getRemoteRecordByOrigin_cached {s : OriginRecordsState}
    {origin : String} {r : RemoteRecord} (h : s.cache origin = some r) :
    getRemoteRecordByOrigin s origin = (r, s) := by
  simp [getRemoteRecordByOrigin, h]

/-- The record stored after one successful acquisition: the head moved to
the tail. -/
def recordAfterAcquire (r : RemoteRecord) (id : String)
    (rest : List String) : RemoteRecord :=
  { r with pairIdQueue := rest ++ [id] }

theorem getNextPairIdFromQueue_cached {s : OriginRecordsState}
    {origin : String} {r : RemoteRecord} {id : String} {rest : List String}
    (h : s.cache origin = some r) (hq : r.pairIdQueue = id :: rest)
    (hid : id ≠ "") :
    getNextPairIdFromQueue s origin =
      (.ok id,
        { s with cache := mapSet s.cache origin (recordAfterAcquire r id rest) }) := by
  simp [getNextPairIdFromQueue, getRemoteRecordByOrigin_cached h, hq, hid,
    recordAfterAcquire]

theorem acquireIter_rotate (origin : String) :
    ∀ (m : Nat) (s : OriginRecordsState) (r : RemoteRecord),
      s.cache origin = some r → (∀ p ∈ r.pairIdQueue, p ≠ "") →
      r.pairIdQueue ≠ [] →
      (∀ x, (r.pairIdQueue.rotate m).head? = some x →
        (acquireIter s origin m).1 = .ok x) ∧
      (acquireIter s origin m).2.cache origin =
        some { r with pairIdQueue := r.pairIdQueue.rotate (m + 1) } := by
  intro m
  induction m with
  | zero =>
    intro s r hrec hids hne
    match hq : r.pairIdQueue, hne with
    | id :: rest, _ =>
      have hid : id ≠ "" := hids id (by simp [hq])
      have hstep := getNextPairIdFromQueue_cached hrec hq hid
      constructor
      · intro x hx
        simp [hq, List.rotate_zero] at hx
        simp [acquireIter, hstep, ← hx]
      · simp [acquireIter, hstep, mapSet_self, recordAfterAcquire, hq,
          List.rotate_cons_succ]
  | succ m ih =>
    intro s r hrec hids hne
    match hq : r.pairIdQueue, hne with
    | id :: rest, _ =>
      have hid : id ≠ "" := hids id (by simp [hq])
      have hstep := getNextPairIdFromQueue_cached hrec hq hid
      have hrot1 : rest ++ [id] = r.pairIdQueue.rotate 1 := by
        simp [hq, List.rotate_cons_succ]
      have hcache₁ : (getNextPairIdFromQueue s origin).2.cache origin =
          some { r with pairIdQueue := r.pairIdQueue.rotate 1 } := by
        rw [hstep]
        simp [mapSet_self, recordAfterAcquire, hrot1]
      have hids₁ : ∀ p ∈ r.pairIdQueue.rotate 1, p ≠ "" := by
        intro p hp
        exact hids p ((List.mem_rotate).1 hp)
      have hne₁ : r.pairIdQueue.rotate 1 ≠ [] := by
        intro hcon
        exact hne (by simpa using congrArg List.length hcon)
      obtain ⟨ih1, ih2⟩ := ih (getNextPairIdFromQueue s origin).2
        { r with pairIdQueue := r.pairIdQueue.rotate 1 } hcache₁ hids₁ hne₁
      constructor
      · intro x hx
        rw [← hq] at hx
        have hx' : (({ r with pairIdQueue := r.pairIdQueue.rotate 1} :
            RemoteRecord).pairIdQueue.rotate m).head? = some x := by
          show ((r.pairIdQueue.rotate 1).rotate m).head? = some x
          rw [List.rotate_rotate, Nat.add_comm 1 m]
          exact hx
        simp only [acquireIter]
        exact ih1 x hx'
      · simp only [acquireIter]
        rw [ih2]
        have hrr : (r.pairIdQueue.rotate 1).rotate (m + 1) =
            r.pairIdQueue.rotate (m + 1 + 1) := by
          rw [List.rotate_rotate, Nat.add_comm 1 (m + 1)]
        simp only [hrr]
        rw [hq]

/-- C5.  `getNextPairIdFromQueue` removes the head of the origin's pair
queue, appends it to the tail and returns it; consequently any run of
successive acquisitions with no evictions or additions is periodic with
period the queue length.  (pairIds are the nonempty random ids produced by
pairing; an empty-string id would trip JavaScript falsiness and throw.) -/
theorem c5_roundRobin_rotation (s : OriginRecordsState) (origin : String)
    (r : RemoteRecord) (hrec : s.cache origin = some r)
    (hne : r.pairIdQueue ≠ []) (hids : ∀ p ∈ r.pairIdQueue, p ≠ "") :
    (∀ id rest, r.pairIdQueue = id :: rest →
      getNextPairIdFromQueue s origin =
        (.ok id,
          { s with cache := mapSet s.cache origin (recordAfterAcquire r id rest) })) ∧
    (∀ m, acquiredAt s origin (m + r.pairIdQueue.length) =
      acquiredAt s origin m) := by
  constructor
  · intro id rest hq
    exact getNextPairIdFromQueue_cached hrec hq (hids id (by simp [hq]))
  · intro m
    have hspec := acquireIter_rotate origin
    have hrotEq : r.pairIdQueue.rotate (m + r.pairIdQueue.length) =
        r.pairIdQueue.rotate m := by
      rw [← List.rotate_rotate]
      have hlen : r.pairIdQueue.length = (r.pairIdQueue.rotate m).length := by
        simp
      rw [hlen, List.rotate_length]
    have hne' : r.pairIdQueue.rotate m ≠ [] := by
      intro hcon
      exact hne (by simpa using congrArg List.length hcon)
    match hq : r.pairIdQueue.rotate m, hne' with
    | x :: t, _ =>
      have hx : (r.pairIdQueue.rotate m).head? = some x := by simp [hq]
      have hx' : (r.pairIdQueue.rotate (m + r.pairIdQueue.length)).head?
          = some x := by rw [hrotEq, hq]; rfl
      have h1 := (hspec m s r hrec hids hne).1 x hx
      have h2 := (hspec (m + r.pairIdQueue.length) s r hrec hids hne).1 x hx'
      simp [acquiredAt, h1, h2]

/-- Concrete two-pair record used to exercise the rotation theorem. -/
def c5exRecord : RemoteRecord :=
  ⟨"https://ex.com", none, .paired, ["a", "b"]⟩

/-- Concrete origin-records state holding `c5exRecord`. -/
def c5exState : OriginRecordsState :=
  ⟨fun k => if k = "https://ex.com" then some c5exRecord else none, []⟩

/-- Witness for C5 at a concrete two-pair queue. -/
theorem c5_roundRobin_rotation_witness :
    c5exState.cache "https://ex.com" = some c5exRecord ∧
    acquiredAt c5exState "https://ex.com" (0 + 2) =
      acquiredAt c5exState "https://ex.com" 0 :=
  ⟨by decide,
   (c5_roundRobin_rotation c5exState "https://ex.com" c5exRecord (by decide)
     (by decide) (by decide)).2 0⟩

/-! ## Eviction frame effect (C9)

In the v3 layout the origin-records map (origin-records.ts line 8) and the
session-state store (cache/state-cache.ts, writing `state:`-prefixed keys
into the generic map of cache/cache.ts) are distinct module-level stores.
`deleteIdFromQueue` closes only over the origin-records map. -/

/-- The client caches relevant to eviction: origin records plus the
session-state store. -/
structure ClientCaches where
  records : OriginRecordsState
  stateCache : String → Option String

/-- `deleteIdFromQueue` (origin-records.ts lines 102-112) lifted to the full
client caches; its body references only the origin-records map. -/
def deleteIdFromQueueClient (cs : ClientCaches) (origin pairId : String) :
    ClientCaches :=
  { cs with records := deleteIdFromQueue cs.records origin pairId }

/-- C9.  Evicting a pairId removes (the first occurrence of) that pairId
from the origin's queue, preserves the relative order of the remaining
entries, and changes nothing else: the record's status and clientId, other
origins' records, the contacted list, and every session-state cache entry
(including the evicted pair's) are untouched. -/
theorem c9_evict_frame (cs : ClientCaches) (origin pairId : String)
    (r : RemoteRecord) (hrec : cs.records.cache origin = some r) :
    ((deleteIdFromQueueClient cs origin pairId).records.cache origin =
      some { r with pairIdQueue := r.pairIdQueue.erase pairId }) ∧
    (r.pairIdQueue.erase pairId).Sublist r.pairIdQueue ∧
    (pairId ∉ r.pairIdQueue → r.pairIdQueue.erase pairId = r.pairIdQueue) ∧
    (r.pairIdQueue.Nodup → pairId ∉ r.pairIdQueue.erase pairId) ∧
    (∀ r', (deleteIdFromQueueClient cs origin pairId).records.cache origin =
      some r' → r'.status = r.status ∧ r'.clientId = r.clientId) ∧
    (∀ o, o ≠ origin →
      (deleteIdFromQueueClient cs origin pairId).records.cache o =
        cs.records.cache o) ∧
    (deleteIdFromQueueClient cs origin pairId).records.serversContacted =
      cs.records.serversContacted ∧
    (deleteIdFromQueueClient cs origin pairId).stateCache = cs.stateCache := by
  have hdel : deleteIdFromQueue cs.records origin pairId = { cs.records with cache := mapSet cs.records.cache origin { r with pairIdQueue := r.pairIdQueue.erase pairId } } := by
    simp [deleteIdFromQueue, getRemoteRecordByOrigin_cached hrec]
  refine ⟨?_, List.erase_sublist _ _, ?_, ?_, ?_, ?_, ?_, ?_⟩
  · simp [deleteIdFromQueueClient, hdel, mapSet_self]
  · intro hnm
    exact List.erase_of_not_mem hnm
  · intro hnd hmem
    exact ((hnd.mem_erase_iff).1 hmem).1 rfl
  · intro r' hr'
    simp [deleteIdFromQueueClient, hdel, mapSet_self] at hr'
    constructor <;> rw [← hr']
  · intro o ho
    simp [deleteIdFromQueueClient, hdel, mapSet_ne _ _ _ _ ho]
  · simp [deleteIdFromQueueClient, hdel]
  · simp [deleteIdFromQueueClient]

/-- Concrete caches used to exercise the eviction theorem. -/
def c9exCaches : ClientCaches :=
  ⟨⟨fun k => if k = "https://ex.com" then
      some ⟨"https://ex.com", some "cid", .paired, ["a", "b", "c"]⟩
    else none, ["https://ex.com"]⟩,
   fun k => if k = "encoder.https://ex.com.b" then some "st" else none⟩

/-- Witness for C9: evicting pair "b" from a three-pair queue. -/
theorem c9_evict_frame_witness :
    c9exCaches.records.cache "https://ex.com" =
      some ⟨"https://ex.com", some "cid", .paired, ["a", "b", "c"]⟩ ∧
    (deleteIdFromQueueClient c9exCaches "https://ex.com" "b").records.cache
        "https://ex.com" =
      some ⟨"https://ex.com", some "cid", .paired,
        (["a", "b", "c"] : List String).erase "b"⟩ :=
  ⟨by decide,
   (c9_evict_frame c9exCaches "https://ex.com" "b"
     ⟨"https://ex.com", some "cid", .paired, ["a", "b", "c"]⟩ (by decide)).1⟩

/-! ## First observer wins (C2) -/

/-- The origin a `ClientOp` targets. -/
def ClientOp.target : ClientOp → String
  | .getRecord o => o
  | .setStatus o _ _ => o
  | .addPair o _ => o
  | .getNext o => o
  | .deleteId o _ => o

theorem getRemoteRecordByOrigin_cache_ne {s : OriginRecordsState}
    {o origin : String} (h : o ≠ origin) :
    (getRemoteRecordByOrigin s o).2.cache origin = s.cache origin := by
  unfold getRemoteRecordByOrigin createNewRemoteRecord
  cases hso : s.cache o with
  | some r => rfl
  | none =>
    by_cases hm : o ∈ s.serversContacted
    · simp [hm]
    · simp [hm, mapSet_ne _ _ _ _ (Ne.symm h)]

theorem getRemoteRecordByOrigin_preserves {s : OriginRecordsState}
    {origin o : String} {r : RemoteRecord} (h : s.cache origin = some r) :
    (getRemoteRecordByOrigin s o).2.cache origin = some r := by
  by_cases ho : o = origin
  · subst ho
    rw [getRemoteRecordByOrigin_cached h]
    exact h
  · rw [getRemoteRecordByOrigin_cache_ne ho]
    exact h

/-- `origin` holds a cached record whose status is not the one-shot
directive. -/
def GoodAt (s : OriginRecordsState) (origin : String) : Prop :=
  ∃ r, s.cache origin = some r ∧ r.status ≠ .validateNow

theorem applyOp_cache_ne {s : OriginRecordsState} {origin : String}
    (op : ClientOp) (h : op.target ≠ origin) :
    (applyOp s op).cache origin = s.cache origin := by
  cases op with
  | getRecord o =>
    exact getRemoteRecordByOrigin_cache_ne h
  | setStatus o st cid =>
    have h' : o ≠ origin := h
    rcases he : getRemoteRecordByOrigin s o with ⟨rec, s₁⟩
    have hs₁ : s₁.cache origin = s.cache origin := by
      have := getRemoteRecordByOrigin_cache_ne (s := s) h'
      rw [he] at this
      exact this
    cases cid <;>
      simp [applyOp, setRemoteStatus, he, mapSet_ne _ _ _ _ (Ne.symm h'), hs₁]
  | addPair o p =>
    have h' : o ≠ origin := h
    rcases he : getRemoteRecordByOrigin s o with ⟨rec, s₁⟩
    have hs₁ : s₁.cache origin = s.cache origin := by
      have := getRemoteRecordByOrigin_cache_ne (s := s) h'
      rw [he] at this
      exact this
    simp [applyOp, addPairIdToQueue, he, mapSet_ne _ _ _ _ (Ne.symm h'), hs₁]
  | getNext o =>
    have h' : o ≠ origin := h
    rcases he : getRemoteRecordByOrigin s o with ⟨rec, s₁⟩
    have hs₁ : s₁.cache origin = s.cache origin := by
      have := getRemoteRecordByOrigin_cache_ne (s := s) h'
      rw [he] at this
      exact this
    rcases hq : rec.pairIdQueue with _ | ⟨id, rest⟩
    · simp [applyOp, getNextPairIdFromQueue, he, hq, hs₁]
    · by_cases hid : id = "" <;>
        simp [applyOp, getNextPairIdFromQueue, he, hq, hid,
          mapSet_ne _ _ _ _ (Ne.symm h'), hs₁]
  | deleteId o p =>
    have h' : o ≠ origin := h
    rcases he : getRemoteRecordByOrigin s o with ⟨rec, s₁⟩
    have hs₁ : s₁.cache origin = s.cache origin := by
      have := getRemoteRecordByOrigin_cache_ne (s := s) h'
      rw [he] at this
      exact this
    simp [applyOp, deleteIdFromQueue, he, mapSet_ne _ _ _ _ (Ne.symm h'), hs₁]

theorem getNextPairIdFromQueue_cached_nil {s : OriginRecordsState}
    {origin : String} {r : RemoteRecord} (h : s.cache origin = some r)
    (hq : r.pairIdQueue = []) :
    getNextPairIdFromQueue s origin = (.error "No ID in queue.", s) := by
  simp [getNextPairIdFromQueue, getRemoteRecordByOrigin_cached h, hq]

theorem getNextPairIdFromQueue_cached_blank {s : OriginRecordsState}
    {origin : String} {r : RemoteRecord} {rest : List String}
    (h : s.cache origin = some r) (hq : r.pairIdQueue = "" :: rest) :
    getNextPairIdFromQueue s origin = (.error "No ID in queue.", { s with cache := mapSet s.cache origin { r with pairIdQueue := rest } }) := by
  simp [getNextPairIdFromQueue, getRemoteRecordByOrigin_cached h, hq]

theorem goodAt_applyOp {s : OriginRecordsState} {origin : String}
    {op : ClientOp} (hv : op.valid) (h : GoodAt s origin) :
    GoodAt (applyOp s op) origin := by
  obtain ⟨r, hr, hst⟩ := h
  cases op with
  | getRecord o =>
    exact ⟨r, getRemoteRecordByOrigin_preserves hr, hst⟩
  | setStatus o st cid =>
    by_cases ho : o = origin
    · subst ho
      cases cid with
      | none =>
        exact ⟨{ r with status := st },
          by simp [applyOp, setRemoteStatus, getRemoteRecordByOrigin_cached hr,
            mapSet_self], hv⟩
      | some c =>
        exact ⟨{ r with status := st, clientId := some c },
          by simp [applyOp, setRemoteStatus, getRemoteRecordByOrigin_cached hr,
            mapSet_self], hv⟩
    · exact ⟨r,
        by rw [applyOp_cache_ne (.setStatus o st cid) ho]; exact hr, hst⟩
  | addPair o p =>
    by_cases ho : o = origin
    · subst ho
      exact ⟨{ r with pairIdQueue := r.pairIdQueue ++ [p] },
        by simp [applyOp, addPairIdToQueue, getRemoteRecordByOrigin_cached hr,
          mapSet_self], hst⟩
    · exact ⟨r, by rw [applyOp_cache_ne (.addPair o p) ho]; exact hr, hst⟩
  | getNext o =>
    by_cases ho : o = origin
    · subst ho
      cases hq : r.pairIdQueue with
      | nil =>
        refine ⟨r, ?_, hst⟩
        rw [show applyOp s (.getNext o) = (getNextPairIdFromQueue s o).2 from rfl,
          getNextPairIdFromQueue_cached_nil hr hq]
        exact hr
      | cons id rest =>
        by_cases hid : id = ""
        · subst hid
          refine ⟨{ r with pairIdQueue := rest }, ?_, hst⟩
          rw [show applyOp s (.getNext o) = (getNextPairIdFromQueue s o).2 from rfl,
            getNextPairIdFromQueue_cached_blank hr hq]
          simp [mapSet_self]
        · refine ⟨{ r with pairIdQueue := rest ++ [id] }, ?_, hst⟩
          rw [show applyOp s (.getNext o) = (getNextPairIdFromQueue s o).2 from rfl,
            getNextPairIdFromQueue_cached hr hq hid]
          simp [mapSet_self, recordAfterAcquire]
    · exact ⟨r, by rw [applyOp_cache_ne (.getNext o) ho]; exact hr, hst⟩
  | deleteId o p =>
    by_cases ho : o = origin
    · subst ho
      exact ⟨{ r with pairIdQueue := r.pairIdQueue.erase p },
        by simp [applyOp, deleteIdFromQueue, getRemoteRecordByOrigin_cached hr,
          mapSet_self], hst⟩
    · exact ⟨r, by rw [applyOp_cache_ne (.deleteId o p) ho]; exact hr, hst⟩

theorem goodAt_applyOps {origin : String} :
    ∀ (ops : List ClientOp) (s : OriginRecordsState),
      (∀ op ∈ ops, op.valid) → GoodAt s origin →
      GoodAt (applyOps s ops) origin := by
  intro ops
  induction ops with
  | nil => intro s _ h; exact h
  | cons op rest ih =>
    intro s hv h
    exact ih (applyOp s op) (fun o ho => hv o (List.mem_cons_of_mem _ ho))
      (goodAt_applyOp (hv op (List.mem_cons_self _ _)) h)

/-- C2.  For an origin never seen before, the first lookup stores a
`pending` record and hands the one-shot `validate-now` directive to that
caller alone; after any sequence of API calls (with the statuses the
TypeScript types admit), later lookups return the stored record and never
the directive.  The v4 `getOriginStatus` behaves the same way with its
`validate` directive. -/
theorem c2_firstObserverWins (s : OriginRecordsState) (origin : String)
    (hfresh : s.cache origin = none) (hcont : origin ∉ s.serversContacted) :
    ((getRemoteRecordByOrigin s origin).1.status = .validateNow) ∧
    ((getRemoteRecordByOrigin s origin).2.cache origin =
      some ⟨origin, none, .pending, []⟩) ∧
    (∀ ops : List ClientOp, (∀ op ∈ ops, op.valid) →
      ∃ r, (applyOps (getRemoteRecordByOrigin s origin).2 ops).cache origin =
          some r ∧
        r.status ≠ .validateNow ∧
        getRemoteRecordByOrigin
            (applyOps (getRemoteRecordByOrigin s origin).2 ops) origin =
          (r, applyOps (getRemoteRecordByOrigin s origin).2 ops)) ∧
    (∀ cache : String → Option OriginStatusV4,
      cache (originStatusKey origin) = none →
        (getOriginStatus cache origin).1 = .validate ∧
        (getOriginStatus cache origin).2 (originStatusKey origin) =
          some .pending ∧
        (getOriginStatus (getOriginStatus cache origin).2 origin).1 =
          .pending) ∧
    (∀ (cache : String → Option OriginStatusV4) (st : OriginStatusV4),
      cache (originStatusKey origin) = some st →
        getOriginStatus cache origin = (st, cache)) := by
  refine ⟨?_, ?_, ?_, ?_, ?_⟩
  · simp [getRemoteRecordByOrigin, createNewRemoteRecord, hfresh, hcont]
  · simp [getRemoteRecordByOrigin, createNewRemoteRecord, hfresh, hcont,
      mapSet_self]
  · intro ops hv
    have hstart : GoodAt (getRemoteRecordByOrigin s origin).2 origin := by
      refine ⟨⟨origin, none, .pending, []⟩, ?_,
        by intro hcon; exact OriginStatus.noConfusion hcon⟩
      simp [getRemoteRecordByOrigin, createNewRemoteRecord, hfresh, hcont,
        mapSet_self]
    obtain ⟨r, hr, hrs⟩ := goodAt_applyOps ops _ hv hstart
    exact ⟨r, hr, hrs, getRemoteRecordByOrigin_cached hr⟩
  · intro cache hc
    refine ⟨?_, ?_, ?_⟩
    · simp [getOriginStatus, hc]
    · simp [getOriginStatus, hc, mapSet_self]
    · simp [getOriginStatus, hc, mapSet_self]
  · intro cache st hc
    simp [getOriginStatus, hc]

/-- Concrete empty state: no origin ever seen. -/
def c2exState : OriginRecordsState := ⟨fun _ => none, []⟩

/-- Witness for C2 at a concrete fresh origin, with one later `paired`
status transition. -/
theorem c2_firstObserverWins_witness :
    ((getRemoteRecordByOrigin c2exState "https://a").1.status =
      .validateNow) ∧
    (∃ r, (applyOps (getRemoteRecordByOrigin c2exState "https://a").2
        [.setStatus "https://a" .paired (some "c")]).cache "https://a" =
          some r ∧
      r.status ≠ .validateNow ∧
      getRemoteRecordByOrigin
          (applyOps (getRemoteRecordByOrigin c2exState "https://a").2
            [.setStatus "https://a" .paired (some "c")]) "https://a" =
        (r, applyOps (getRemoteRecordByOrigin c2exState "https://a").2
          [.setStatus "https://a" .paired (some "c")])) := by
  have h := c2_firstObserverWins c2exState "https://a" rfl (by simp [c2exState])
  refine ⟨h.1, h.2.2.1 [.setStatus "https://a" .paired (some "c")] ?_⟩
  intro op hop
  rw [List.mem_singleton] at hop
  subst hop
  exact (by decide : OriginStatus.paired ≠ OriginStatus.validateNow)

/-! ## Default in-memory state cache (src/src/mte/memory-cache.ts) -/

/-- Does `needle` begin `hay`?  (helper for `includes`). -/
def charsLeadWith : List Char → List Char → Bool
  | [], _ => true
  | _ :: _, [] => false
  | c :: cs, d :: ds => c = d && charsLeadWith cs ds

/-- JS `String.prototype.includes` over the character list. -/
def charsIncludes (hay needle : List Char) : Bool :=
  match hay with
  | [] => needle.isEmpty
  | _ :: t => charsLeadWith needle hay || charsIncludes t needle

/-- `id.includes(sub)` for Lean strings. -/
def strIncludes (s sub : String) : Bool :=
  charsIncludes s.data sub.data

/-- The module-level `store` Map (memory-cache.ts line 9). -/
def MemoryStore : Type := String → Option String

/-- `Map.delete(k)`. -/
def mapDelete (m : MemoryStore) (k : String) : MemoryStore :=
  fun k' => if k' = k then none else m k'

/-- `setItem` (memory-cache.ts lines 12-14). -/
def setItem (store : MemoryStore) (id value : String) : MemoryStore :=
  fun k' => if k' = id then some value else store k'

/-- `takeItem` (memory-cache.ts lines 21-27): read the value, and delete
the entry unless the key contains the substring "decoder". -/
def takeItem (store : MemoryStore) (id : String) :
    Option String × MemoryStore :=
  let item := store id
  if strIncludes id "decoder" then (item, store)
  else (item, mapDelete store id)

/-- C10.  `takeItem` returns the stored value; it deletes the entry exactly
when the key does not contain "decoder".  Hence two successive takes of an
encoder-state key yield the value and then `undefined`, while two
successive takes of a decoder-state key both yield the value.  Entries
under other keys are untouched. -/
theorem c10_takeItem_singleUse (store : MemoryStore) (id v : String)
    (h : store id = some v) :
    ((takeItem store id).1 = some v) ∧
    (strIncludes id "decoder" = false →
      (takeItem store id).2 id = none ∧
      (takeItem (takeItem store id).2 id).1 = none) ∧
    (strIncludes id "decoder" = true →
      (takeItem store id).2 = store ∧
      (takeItem (takeItem store id).2 id).1 = some v) ∧
    (∀ k, k ≠ id → (takeItem store id).2 k = store k) := by
  refine ⟨?_, ?_, ?_, ?_⟩
  · by_cases hd : strIncludes id "decoder" <;> simp [takeItem, hd, h]
  · intro hd
    simp [takeItem, hd, mapDelete, h]
  · intro hd
    simp [takeItem, hd, h]
  · intro k hk
    by_cases hd : strIncludes id "decoder" <;>
      simp [takeItem, hd, mapDelete, hk]

/-- Concrete store holding one encoder state and one decoder state. -/
def c10store : MemoryStore :=
  setItem (setItem (fun _ => none) "encoder.o.p" "sE") "decoder.o.p" "sD"

/-- Witness for C10 on concrete encoder and decoder keys. -/
theorem c10_takeItem_singleUse_witness :
    ((takeItem c10store "encoder.o.p").1 = some "sE" ∧
      (takeItem (takeItem c10store "encoder.o.p").2 "encoder.o.p").1 =
        none) ∧
    ((takeItem c10store "decoder.o.p").1 = some "sD" ∧
      (takeItem (takeItem c10store "decoder.o.p").2 "decoder.o.p").1 =
        some "sD") := by
  have hE := c10_takeItem_singleUse c10store "encoder.o.p" "sE" (by decide)
  have hD := c10_takeItem_singleUse c10store "decoder.o.p" "sD" (by decide)
  exact ⟨⟨hE.1, (hE.2.1 (by decide)).2⟩, ⟨hD.1, (hD.2.2.1 (by decide)).2⟩⟩

/-! ## Wire header (src/src/mte/mte-fetch/format-mte-info-header.ts,
v4 variant at lines 43-77)

Header strings are modelled as character lists; `joinComma` and
`splitComma` are the JS `Array.prototype.join(",")` and
`String.prototype.split(",")`. -/

/-- The two engine modes, `"MTE" | "MKE"`. -/
inductive EncDecType where
  | MTE
  | MKE
deriving DecidableEq, Repr

/-- `args.join(",")`. -/
def joinComma : List (List Char) → List Char
  | [] => []
  | [x] => x
  | x :: y :: rest => x ++ ',' :: joinComma (y :: rest)

/-- `header.split(",")`. -/
def splitComma : List Char → List (List Char)
  | [] => [[]]
  | c :: cs =>
    if c = ',' then [] :: splitComma cs
    else
      match splitComma cs with
      | [] => [[c]]
      | p :: ps => (c :: p) :: ps

/-- Argument record of `formatMteRelayHeader` (lines 43-50). -/
structure MteRelayHeaderOptions where
  type : EncDecType
  urlIsEncoded : Bool
  headersAreEncoded : Bool
  bodyIsEncoded : Bool
  clientId : List Char
  pairId : List Char
deriving DecidableEq, Repr

/-- `formatMteRelayHeader` (lines 43-59): clientId, pairId, mode 0/1, then
the three 0/1 flags, joined with commas. -/
def formatMteRelayHeader (o : MteRelayHeaderOptions) : List Char :=
  joinComma [o.clientId, o.pairId,
    if o.type = .MTE then ['0'] else ['1'],
    if o.urlIsEncoded then ['1'] else ['0'],
    if o.headersAreEncoded then ['1'] else ['0'],
    if o.bodyIsEncoded then ['1'] else ['0']]

/-- Result record of `parseMteRelayHeader` (lines 69-76). -/
structure ParsedMteRelayHeader where
  type : EncDecType
  urlIsEncoded : Bool
  headersAreEncoded : Bool
  bodyIsEncoded : Bool
  clientId : List Char
  pairId : List Char
deriving DecidableEq, Repr

/-- `parseMteRelayHeader` (lines 61-77): positional split on commas.  A
missing position is JS `undefined`; the `getD []` default behaves the same
in every `===` comparison the function performs. -/
def parseMteRelayHeader (header : List Char) : ParsedMteRelayHeader :=
  let args := splitComma header
  { clientId := args.getD 0 []
    pairId := args.getD 1 []
    type := if args.getD 2 [] = ['0'] then .MTE else .MKE
    urlIsEncoded := args.getD 3 [] = ['1']
    headersAreEncoded := args.getD 4 [] = ['1']
    bodyIsEncoded := args.getD 5 [] = ['1'] }

theorem splitComma_no_comma :
    ∀ (x : List Char), ',' ∉ x → splitComma x = [x] := by
  intro x
  induction x with
  | nil => intro _; rfl
  | cons c cs ih =>
    intro h
    have hc : ¬c = ',' := fun hc => h (hc ▸ List.mem_cons_self _ _)
    have hcs : ',' ∉ cs := fun hm => h (List.mem_cons_of_mem _ hm)
    simp only [splitComma, if_neg hc, ih hcs]

theorem splitComma_append :
    ∀ (x rest : List Char), ',' ∉ x →
      splitComma (x ++ ',' :: rest) = x :: splitComma rest := by
  intro x
  induction x with
  | nil =>
    intro rest _
    simp [splitComma]
  | cons c cs ih =>
    intro rest h
    have hc : ¬c = ',' := fun hc => h (hc ▸ List.mem_cons_self _ _)
    have hcs : ',' ∉ cs := fun hm => h (List.mem_cons_of_mem _ hm)
    simp only [List.cons_append, splitComma, if_neg hc, List.append_eq]
    rw [ih rest hcs]

theorem splitComma_joinComma :
    ∀ (parts : List (List Char)), parts ≠ [] →
      (∀ p ∈ parts, ',' ∉ p) →
      splitComma (joinComma parts) = parts := by
  intro parts
  induction parts with
  | nil => intro h; exact absurd rfl h
  | cons x restP ih =>
    intro _ hall
    cases restP with
    | nil =>
      exact splitComma_no_comma x (hall x (List.mem_cons_self _ _))
    | cons y rest =>
      have hx : ',' ∉ x := hall x (List.mem_cons_self _ _)
      rw [show joinComma (x :: y :: rest) = x ++ ',' :: joinComma (y :: rest)
        from rfl, splitComma_append _ _ hx,
        ih (by simp) (fun p hp => hall p (List.mem_cons_of_mem _ hp))]

/-- No comma occurs in a 0/1 flag rendering. -/
theorem comma_not_mem_bit (b : Bool) :
    ',' ∉ (if b then ['1'] else ['0']) := by
  cases b <;> decide

/-- C6.  The wire header is the comma-separated fields clientId, pairId,
mode (0 = MTE, 1 = MKE), urlEncoded, headersEncoded, bodyEncoded in that
fixed order, and `parseMteRelayHeader` recovers every field positionally
whenever clientId and pairId contain no comma. -/
theorem c6_wireHeader_roundTrip (o : MteRelayHeaderOptions)
    (hc : ',' ∉ o.clientId) (hp : ',' ∉ o.pairId) :
    (formatMteRelayHeader o =
      o.clientId ++ ',' :: (o.pairId ++ ',' ::
        ((if o.type = .MTE then ['0'] else ['1']) ++ ',' ::
          ((if o.urlIsEncoded then ['1'] else ['0']) ++ ',' ::
            ((if o.headersAreEncoded then ['1'] else ['0']) ++ ',' ::
              (if o.bodyIsEncoded then ['1'] else ['0'])))))) ∧
    parseMteRelayHeader (formatMteRelayHeader o) =
      ⟨o.type, o.urlIsEncoded, o.headersAreEncoded, o.bodyIsEncoded,
        o.clientId, o.pairId⟩ := by
  constructor
  · rfl
  · have hargs : splitComma (formatMteRelayHeader o) =
        [o.clientId, o.pairId,
          if o.type = .MTE then ['0'] else ['1'],
          if o.urlIsEncoded then ['1'] else ['0'],
          if o.headersAreEncoded then ['1'] else ['0'],
          if o.bodyIsEncoded then ['1'] else ['0']] := by
      apply splitComma_joinComma _ (by simp)
      intro p hpmem
      simp only [List.mem_cons, List.not_mem_nil, or_false] at hpmem
      rcases hpmem with rfl | rfl | rfl | rfl | rfl | rfl
      · exact hc
      · exact hp
      · cases o.type <;> decide
      · exact comma_not_mem_bit _
      · exact comma_not_mem_bit _
      · exact comma_not_mem_bit _
    simp only [parseMteRelayHeader, hargs]
    cases o.type <;> cases o.urlIsEncoded <;> cases o.headersAreEncoded <;>
      cases o.bodyIsEncoded <;> simp [List.getD]

/-- Witness for C6 at a concrete header. -/
theorem c6_wireHeader_roundTrip_witness :
    parseMteRelayHeader
        (formatMteRelayHeader
          ⟨.MKE, true, false, true, ['c', '1'], ['p', '2']⟩) =
      ⟨.MKE, true, false, true, ['c', '1'], ['p', '2']⟩ :=
  (c6_wireHeader_roundTrip ⟨.MKE, true, false, true, ['c', '1'], ['p', '2']⟩
    (by decide) (by decide)).2

/-! ## Request/response codec (src/src/mte/mte-fetch/request.ts and
response.ts)

The external MTE engine (`encode` / `decode` of mte/mte-helpers) is an
opaque stateful collaborator; one call maps an ordered item list to an
equal-length result list under a session-state key.  It is modelled as an
explicit function parameter; a thrown `MteRelayError` is `Except.error`. -/

/-- A JS value that is either a string or a `Uint8Array`. -/
inductive JsData where
  | str (s : String)
  | bytes (b : List Nat)
deriving DecidableEq, Repr

/-- Requested output form of one encode item (`"B64" | "Uint8Array"`). -/
inductive EncOutput where
  | B64
  | U8
deriving DecidableEq, Repr

/-- Requested output form of one decode item (`"str" | "Uint8Array"`). -/
inductive DecOutput where
  | str
  | U8
deriving DecidableEq, Repr

/-- One entry of `itemsToEncode`. -/
structure EncItem where
  data : JsData
  output : EncOutput
deriving DecidableEq, Repr

/-- One entry of `itemsToDecode`. -/
structure DecItem where
  data : JsData
  output : DecOutput
deriving DecidableEq, Repr

/-- The external engine: `encode`/`decode` keyed by session-state id and
mode. -/
structure Engine where
  encode : String → EncDecType → List EncItem → Except String (List JsData)
  decode : String → EncDecType → List DecItem → Except String (List JsData)

/-- UTF-8 bytes of one code point. -/
def utf8Bytes (c : Char) : List Nat :=
  let n := c.toNat
  if n < 0x80 then [n]
  else if n < 0x800 then [0xC0 + n / 0x40, 0x80 + n % 0x40]
  else if n < 0x10000 then
    [0xE0 + n / 0x1000, 0x80 + (n / 0x40) % 0x40, 0x80 + n % 0x40]
  else
    [0xF0 + n / 0x40000, 0x80 + (n / 0x1000) % 0x40,
      0x80 + (n / 0x40) % 0x40, 0x80 + n % 0x40]

/-- UTF-8 encoding of a string (JS `TextEncoder` / `Request` body
coercion). -/
def strUtf8 (s : String) : List Nat :=
  s.data.flatMap utf8Bytes

/-- JS string coercion of a `string | Uint8Array` value (a `Uint8Array`
stringifies as comma-joined decimal bytes). -/
def JsData.asString : JsData → String
  | .str s => s
  | .bytes b => String.intercalate "," (b.map toString)

/-- Byte view of a `string | Uint8Array` value (strings are UTF-8 encoded
when used as a request/response body). -/
def JsData.asBytes : JsData → List Nat
  | .str s => strUtf8 s
  | .bytes b => b

/-- JS `Headers`, modelled as an association list of name/value pairs.
`set` replaces in place or appends, `get` returns the first match,
`delete` removes the name.  (Browser `Headers` iterates sorted by name;
no theorem below depends on iteration order.) -/
abbrev HeadersM : Type := List (String × String)

/-- `headers.get(k)` (`null` = `none`). -/
def headersGet (hs : HeadersM) (k : String) : Option String :=
  (hs.find? (fun kv => kv.1 == k)).map (·.2)

/-- `headers.set(k, v)`. -/
def headersSet (hs : HeadersM) (k v : String) : HeadersM :=
  if hs.any (fun kv => kv.1 == k) then
    hs.map (fun kv => if kv.1 == k then (k, v) else kv)
  else hs ++ [(k, v)]

/-- `headers.delete(k)`. -/
def headersDelete (hs : HeadersM) (k : String) : HeadersM :=
  hs.filter (fun kv => kv.1 ≠ k)

/-- Object-record insertion `record[k] = v` (same replacement semantics as
`headersSet` for a string-keyed object). -/
def recordSet (hs : List (String × String)) (k v : String) :
    List (String × String) :=
  headersSet hs k v

/-- A parsed URL as `new URL` exposes it: `href = origin ++ pathname ++
search`, the pathname beginning with "/". -/
structure UrlModel where
  origin : String
  pathname : String
  search : String
deriving DecidableEq, Repr

/-- `url.href` / `request.url`. -/
def UrlModel.href (u : UrlModel) : String :=
  u.origin ++ u.pathname ++ u.search

/-- Characters `encodeURIComponent` leaves unescaped: alphanumerics and
`- _ . ! ~ * ' ( )`. -/
def uriUnreserved (c : Char) : Bool :=
  c.isAlphanum || c = '-' || c = '_' || c = '.' || c = '!' || c = '~' ||
    c = '*' || c.toNat == 39 || c = '(' || c = ')'

/-- Uppercase hex digit. -/
def hexDigit (n : Nat) : Char :=
  if n < 10 then Char.ofNat (48 + n) else Char.ofNat (55 + n)

/-- `%XX` escape of one byte. -/
def percentByte (b : Nat) : List Char :=
  ['%', hexDigit (b / 16), hexDigit (b % 16)]

/-- JS `encodeURIComponent`. -/
def encodeURIComponent (s : String) : String :=
  ⟨s.data.flatMap fun c =>
    if uriUnreserved c then [c] else (utf8Bytes c).flatMap percentByte⟩

/-- JSON escape of one character inside a string literal
(`JSON.stringify` rules for string values). -/
def jsonEscapeChar (c : Char) : List Char :=
  if c = '"' then ['\\', '"']
  else if c = '\\' then ['\\', '\\']
  else if c.toNat == 8 then ['\\', 'b']
  else if c.toNat == 9 then ['\\', 't']
  else if c.toNat == 10 then ['\\', 'n']
  else if c.toNat == 12 then ['\\', 'f']
  else if c.toNat == 13 then ['\\', 'r']
  else if c.toNat < 32 then
    ['\\', 'u', '0', '0', hexDigit (c.toNat / 16), hexDigit (c.toNat % 16)]
  else [c]

/-- JSON string literal. -/
def jsonQuote (s : String) : List Char :=
  '"' :: s.data.flatMap jsonEscapeChar ++ ['"']

/-- `JSON.stringify` of a flat string-to-string record, in entry order. -/
def jsonStringifyRecord (entries : List (String × String)) : String :=
  let inner : String := String.intercalate ","
    (entries.map fun kv => (⟨jsonQuote kv.1 ++ ':' :: jsonQuote kv.2⟩ : String))
  ⟨('\x7b' :: inner.data) ++ ['\x7d']⟩

/-- Unescape one JSON string body; returns the string and the rest after
the closing quote.  Fuel-free structural recursion on the char list. -/
def jsonParseStringAux : List Char → Option (List Char × List Char)
  | [] => none
  | '"' :: rest => some ([], rest)
  | '\\' :: e :: rest =>
    match jsonParseStringAux rest with
    | none => none
    | some (acc, rem) =>
      if e = '"' then some ('"' :: acc, rem)
      else if e = '\\' then some ('\\' :: acc, rem)
      else if e = 'b' then some (Char.ofNat 8 :: acc, rem)
      else if e = 't' then some (Char.ofNat 9 :: acc, rem)
      else if e = 'n' then some (Char.ofNat 10 :: acc, rem)
      else if e = 'f' then some (Char.ofNat 12 :: acc, rem)
      else if e = 'r' then some (Char.ofNat 13 :: acc, rem)
      else none
  | c :: rest =>
    match jsonParseStringAux rest with
    | none => none
    | some (acc, rem) => some (c :: acc, rem)

/-- Parse the members of a flat string record, with fuel. -/
def jsonParseMembers : Nat → List Char → Option (List (String × String))
  | 0, _ => none
  | _ + 1, '\x7d' :: [] => some []
  | fuel + 1, '"' :: rest =>
    match jsonParseStringAux rest with
    | none => none
    | some (k, ':' :: '"' :: rest₁) =>
      match jsonParseStringAux rest₁ with
      | none => none
      | some (v, ',' :: rest₂) =>
        match jsonParseMembers fuel ('"' :: rest₂) with
        | none => none
        | some ms => some ((⟨k⟩, ⟨v⟩) :: ms)
      | some (v, ['\x7d']) => some [(⟨k⟩, ⟨v⟩)]
      | some _ => none
    | some _ => none
  | _, _ => none

/-- `JSON.parse` restricted to the flat string records the codec
serializes; anything else is a parse failure (a thrown `SyntaxError`). -/
def jsonParseRecord (s : String) : Option (List (String × String)) :=
  match s.data with
  | '\x7b' :: rest => jsonParseMembers (rest.length + 1) rest
  | _ => none

/-- The wire header name (v4 constants; also written literally as
`x-mte-relay` in decodeResponse). -/
def MTE_RELAY_HEADER : String := "x-mte-relay"

/-- The encoded-header-bag header name.  constants.ts is absent from the
snapshot; the exact spelling is opaque and no property depends on it. -/
def MTE_ENCODED_HEADERS_HEADER : String := "x-mte-encoded-headers"

/-- A `Request`: parsed URL, method, headers, body bytes (if any), and
credentials mode. -/
structure JsRequest where
  url : UrlModel
  method : String
  headers : HeadersM
  body : Option (List Nat)
  credentials : String
deriving DecidableEq, Repr

/-- Options of `encodeRequest` (request.ts lines 8-15): `encodeHeaders`
is `boolean | string[]`. -/
structure EncodeRequestOptions where
  clientId : String
  originId : String
  pairId : String
  type : EncDecType
  encodeUrl : Option Bool
  encodeHeaders : Option (Sum Bool (List String))
deriving DecidableEq

/-- The route `url.pathname.slice(1) + url.search` (request.ts line 26). -/
def encodeRequestRoute (req : JsRequest) : String :=
  (⟨req.url.pathname.data.drop 1⟩ : String) ++ req.url.search

/-- Header collection of `encodeRequest` (request.ts lines 30-53): builds
`headersToEncode` and deletes the selected names from the copied request
headers; the original `content-type` is then always added to the bag when
present (and truthy). -/
def encodeRequestHeadersPrep (req : JsRequest)
    (opts : EncodeRequestOptions) :
    List (String × String) × HeadersM :=
  let encodeHeaders := opts.encodeHeaders.getD (.inl true)
  let truthy := match encodeHeaders with
    | .inl b => b
    | .inr _ => true
  let (bag₁, nh₁) :=
    if truthy then
      match opts.encodeHeaders with
      | some (.inr allow) =>
        allow.foldl
          (fun (acc : List (String × String) × HeadersM) header =>
            match headersGet req.headers header with
            | some v =>
              if v = "" then acc
              else (recordSet acc.1 header v, headersDelete acc.2 header)
            | none => acc)
          ([], req.headers)
      | _ =>
        req.headers.foldl
          (fun (acc : List (String × String) × HeadersM) kv =>
            (recordSet acc.1 kv.1 kv.2, headersDelete acc.2 kv.1))
          ([], req.headers)
    else ([], req.headers)
  let bag₂ :=
    match headersGet req.headers "content-type" with
    | some ct => if ct = "" then bag₁ else recordSet bag₁ "content-type" ct
    | none => bag₁
  (bag₂, nh₁)

/-- The ordered `itemsToEncode` list of `encodeRequest` (request.ts lines
17-68): route (if URL encoding), header-bag JSON (if the bag is
nonempty), body bytes (if nonempty). -/
def encodeRequestItems (req : JsRequest) (opts : EncodeRequestOptions) :
    List EncItem :=
  let itemsUrl : List EncItem :=
    if opts.encodeUrl.getD true then
      [⟨.str (encodeRequestRoute req), .B64⟩]
    else []
  let bag := (encodeRequestHeadersPrep req opts).1
  let itemsHeaders : List EncItem :=
    if 0 < bag.length then [⟨.str (jsonStringifyRecord bag), .B64⟩] else []
  let bodyBytes := req.body.getD []
  let itemsBody : List EncItem :=
    if 0 < bodyBytes.length then [⟨.bytes bodyBytes, .U8⟩] else []
  itemsUrl ++ itemsHeaders ++ itemsBody

/-- `encodeRequest` (request.ts lines 6-119, the variant paired with the
v4 wire-header format): encode the collected items in one engine call
under `encoder.<origin>.<pairId>`, then rebuild the request: the
percent-escaped encoded route as the sole path segment, the wire header,
`content-type: application/octet-stream`, the encoded header bag under its
dedicated name, and the encoded body bytes (consuming the engine results
positionally with `result.shift()`). -/
def encodeRequest (engine : Engine) (req : JsRequest)
    (opts : EncodeRequestOptions) : Except String JsRequest :=
  let encodeUrlFlag := opts.encodeUrl.getD true
  let (bag, nh₀) := encodeRequestHeadersPrep req opts
  let headersFlag := 0 < bag.length
  let bodyBytes := req.body.getD []
  let bodyFlag := 0 < bodyBytes.length
  match engine.encode ("encoder." ++ opts.originId ++ "." ++ opts.pairId)
      opts.type (encodeRequestItems req opts) with
  | .error e => .error e
  | .ok result =>
    let (newUrl, result₁) :=
      if encodeUrlFlag then
        ((⟨req.url.origin,
            "/" ++ encodeURIComponent ((result.getD 0 (.str "")).asString),
            ""⟩ : UrlModel), result.drop 1)
      else (req.url, result)
    let h₁ := headersSet nh₀ MTE_RELAY_HEADER
      ⟨formatMteRelayHeader ⟨opts.type, encodeUrlFlag, headersFlag, bodyFlag,
        opts.clientId.data, opts.pairId.data⟩⟩
    let h₂ := headersSet h₁ "content-type" "application/octet-stream"
    let (h₃, result₂) :=
      if headersFlag then
        (headersSet h₂ MTE_ENCODED_HEADERS_HEADER
          ((result₁.getD 0 (.str "")).asString), result₁.drop 1)
      else (h₂, result₁)
    let newBody : Option (List Nat) :=
      if bodyFlag then some ((result₂.getD 0 (.str "")).asBytes)
      else if req.body.isSome then some bodyBytes else none
    .ok ⟨newUrl, req.method, h₃, newBody, req.credentials⟩

/-- A `Response`. -/
structure JsResponse where
  status : Nat
  statusText : String
  headers : HeadersM
  body : Option (List Nat)
deriving DecidableEq, Repr

/-- `decodeResponse` (response.ts lines 100-168): read the wire header to
learn what to decode, decode header bag and body in one engine call under
the caller-supplied decoder state key, then rebuild the response.  The
decoded body is taken from `result[1]`. -/
def decodeResponse (engine : Engine) (resp : JsResponse)
    (decoderId : String) : Except String JsResponse :=
  match headersGet resp.headers "x-mte-relay" with
  | none => .error "Missing required header"
  | some x =>
    if x = "" then .error "Missing required header"
    else
      let relayOptions := parseMteRelayHeader x.data
      let itemsHeaders : List DecItem :=
        if relayOptions.headersAreEncoded then
          match headersGet resp.headers MTE_ENCODED_HEADERS_HEADER with
          | some h => if h = "" then [] else [⟨.str h, .str⟩]
          | none => []
        else []
      let itemsBody : List DecItem :=
        if relayOptions.bodyIsEncoded then
          match resp.body with
          | some b => [⟨.bytes b, .U8⟩]
          | none => []
        else []
      match engine.decode decoderId relayOptions.type
          (itemsHeaders ++ itemsBody) with
      | .error e => .error e
      | .ok result =>
        let newHeadersE : Except String HeadersM :=
          if relayOptions.headersAreEncoded then
            match jsonParseRecord ((result.getD 0 (.str "")).asString) with
            | none => .error "JSON.parse failed"
            | some entries =>
              .ok (entries.foldl (fun hs kv => headersSet hs kv.1 kv.2)
                (headersDelete resp.headers MTE_ENCODED_HEADERS_HEADER))
          else .ok resp.headers
        match newHeadersE with
        | .error e => .error e
        | .ok newHeaders =>
          let newBody : Option JsData :=
            if relayOptions.bodyIsEncoded then result.get? 1
            else resp.body.map .bytes
          .ok ⟨resp.status, resp.statusText, newHeaders,
            newBody.map JsData.asBytes⟩

/-- The identity engine: encoding and decoding return each item's data
unchanged, so decode inverts encode per call. -/
def idEngine : Engine :=
  ⟨fun _ _ items => .ok (items.map (·.data)),
   fun _ _ items => .ok (items.map (·.data))⟩

/-- An encoded response as a relay produces it for the combination
"headers not encoded, body encoded": wire header `c,p,1,0,0,1` and an
(identity-)encoded body. -/
def c1encResp : JsResponse :=
  ⟨200, "", [("x-mte-relay", "c,p,1,0,0,1"),
    ("content-type", "application/octet-stream")], some [1, 2, 3]⟩

/-- C1 (failing input).  Even with an engine whose decode inverts its
encode, `decodeResponse` on a response whose wire header says
`headersEncoded = 0, bodyEncoded = 1` returns an empty body: the decoded
body is read from `result[1]`, but with no header item in the decode list
the body is `result[0]`.  The original body bytes `[1, 2, 3]` are lost. -/
theorem c1_decodeResponse_dropsBody :
    (∀ (sid : String) (ty : EncDecType) (items : List DecItem),
      idEngine.decode sid ty items = .ok (items.map (·.data))) ∧
    idEngine.encode "encoder.o.p" .MKE [⟨.bytes [1, 2, 3], .U8⟩] =
      .ok [.bytes [1, 2, 3]] ∧
    (parseMteRelayHeader ("c,p,1,0,0,1" : String).data).bodyIsEncoded =
      true ∧
    (parseMteRelayHeader ("c,p,1,0,0,1" : String).data).headersAreEncoded =
      false ∧
    ∃ decResp, decodeResponse idEngine c1encResp "decoder.o.p" =
        .ok decResp ∧
      decResp.body = none ∧ c1encResp.body = some [1, 2, 3] := by
  refine ⟨fun sid ty items => rfl, rfl, by decide, by decide,
    ⟨⟨200, "", c1encResp.headers, none⟩, ?_, rfl, rfl⟩⟩
  rfl

theorem find?_map_set_entry (k v : String) :
    ∀ hs : HeadersM, hs.any (fun kv => kv.1 == k) = true →
      (hs.map (fun kv => if kv.1 == k then (k, v) else kv)).find?
        (fun kv => kv.1 == k) = some (k, v) := by
  intro hs
  induction hs with
  | nil => intro h; simp at h
  | cons a t ih =>
    intro h
    simp only [List.map_cons]
    by_cases ha : (a.1 == k) = true
    · rw [show (if (a.1 == k) = true then (k, v) else a) = (k, v) from
        if_pos ha]
      rw [List.find?_cons_of_pos _ (by simp)]
    · rw [show (if (a.1 == k) = true then (k, v) else a) = a from
        if_neg ha]
      rw [List.find?_cons_of_neg _ (by simpa using ha)]
      rw [List.any_cons, Bool.or_eq_true] at h
      rcases h with h | h
      · exact absurd h ha
      · exact ih h

theorem find?_map_set_entry_ne (k v k' : String) (hk : k' ≠ k) :
    ∀ hs : HeadersM,
      (hs.map (fun kv => if kv.1 == k then (k, v) else kv)).find?
          (fun kv => kv.1 == k') =
        hs.find? (fun kv => kv.1 == k') := by
  intro hs
  induction hs with
  | nil => rfl
  | cons a t ih =>
    simp only [List.map_cons]
    by_cases ha : (a.1 == k) = true
    · have ha' : a.1 = k := by simpa using ha
      rw [show (if (a.1 == k) = true then (k, v) else a) = (k, v) from
        if_pos ha]
      rw [List.find?_cons_of_neg _ (by simp [Ne.symm hk])]
      rw [List.find?_cons_of_neg _ (by simp [ha', Ne.symm hk])]
      exact ih
    · rw [show (if (a.1 == k) = true then (k, v) else a) = a from
        if_neg ha]
      by_cases ha' : (a.1 == k') = true
      · simp [List.find?_cons, ha']
      · rw [List.find?_cons_of_neg _ (by simpa using ha'),
          List.find?_cons_of_neg _ (by simpa using ha')]
        exact ih

theorem headersGet_set_self (hs : HeadersM) (k v : String) :
    headersGet (headersSet hs k v) k = some v := by
  unfold headersGet headersSet
  by_cases h : hs.any (fun kv => kv.1 == k) = true
  · rw [if_pos h, find?_map_set_entry k v hs h]
    rfl
  · rw [if_neg h, List.find?_append]
    have hnone : hs.find? (fun kv => kv.1 == k) = none := by
      rw [List.find?_eq_none]
      intro x hx
      intro hcon
      exact h (List.any_eq_true.mpr ⟨x, hx, hcon⟩)
    rw [hnone]
    simp [List.find?]

theorem headersGet_set_ne (hs : HeadersM) (k v k' : String)
    (hk : k' ≠ k) :
    headersGet (headersSet hs k v) k' = headersGet hs k' := by
  unfold headersGet headersSet
  by_cases h : hs.any (fun kv => kv.1 == k) = true
  · rw [if_pos h, find?_map_set_entry_ne k v k' hk hs]
  · rw [if_neg h, List.find?_append]
    have hone : ([(k, v)] : HeadersM).find? (fun kv => kv.1 == k') =
        none := by
      rw [List.find?_cons_of_neg _ (by simp [Ne.symm hk])]
      rfl
    rw [hone]
    cases hs.find? (fun kv => kv.1 == k') <;> rfl

/-- C8.  For a zero-length body, `encodeRequest` adds no body item to the
engine's encode list (every item it does pass asks for `B64` string
output; the body would be the only `Uint8Array` item), the wire header is
built with `bodyIsEncoded := false`, and (given the engine call succeeds)
the whole call succeeds. -/
theorem c8_emptyBody_noop (engine : Engine) (req : JsRequest)
    (opts : EncodeRequestOptions) (rs : List JsData)
    (hbody : req.body.getD [] = [])
    (hengine : engine.encode
        ("encoder." ++ opts.originId ++ "." ++ opts.pairId) opts.type
        (encodeRequestItems req opts) = .ok rs) :
    (∀ item ∈ encodeRequestItems req opts, item.output = .B64) ∧
    (encodeRequestItems req opts =
      (if opts.encodeUrl.getD true then
        [⟨.str (encodeRequestRoute req), .B64⟩] else []) ++
      (if 0 < (encodeRequestHeadersPrep req opts).1.length then
        [⟨.str (jsonStringifyRecord (encodeRequestHeadersPrep req opts).1),
          .B64⟩] else [])) ∧
    ∃ req', encodeRequest engine req opts = .ok req' ∧
      headersGet req'.headers MTE_RELAY_HEADER =
        some ⟨formatMteRelayHeader ⟨opts.type, opts.encodeUrl.getD true,
          0 < (encodeRequestHeadersPrep req opts).1.length, false,
          opts.clientId.data, opts.pairId.data⟩⟩ := by
  have hitems : encodeRequestItems req opts =
      (if opts.encodeUrl.getD true then
        [⟨.str (encodeRequestRoute req), .B64⟩] else []) ++
      (if 0 < (encodeRequestHeadersPrep req opts).1.length then
        [⟨.str (jsonStringifyRecord (encodeRequestHeadersPrep req opts).1),
          .B64⟩] else []) := by
    unfold encodeRequestItems
    rw [hbody]
    simp
  refine ⟨?_, hitems, ?_⟩
  · intro item hmem
    rw [hitems] at hmem
    rcases List.mem_append.1 hmem with hm | hm
    · by_cases hurl : opts.encodeUrl.getD true <;> simp [hurl] at hm
      rw [hm]
    · by_cases hbag : 0 < (encodeRequestHeadersPrep req opts).1.length <;>
        simp [hbag] at hm
      rw [hm]
  · unfold encodeRequest
    rw [hengine]
    rw [hbody]
    by_cases hurl : opts.encodeUrl.getD true = true <;>
      by_cases hbag : 0 < (encodeRequestHeadersPrep req opts).1.length <;>
      · simp [hurl, hbag]
        first
        | rw [headersGet_set_ne _ _ _ _ (by decide),
            headersGet_set_ne _ _ _ _ (by decide), headersGet_set_self]
        | rw [headersGet_set_ne _ _ _ _ (by decide), headersGet_set_self]

/-- Concrete empty-body request for the C8 witness. -/
def c8req : JsRequest :=
  ⟨⟨"https://x", "/p", ""⟩, "GET", [], none, "include"⟩

/-- Concrete options for the C8 witness. -/
def c8opts : EncodeRequestOptions := ⟨"c", "o", "p", .MKE, none, none⟩

/-- Witness for C8: an empty-body request passes only B64 items and the
wire header carries `bodyIsEncoded := false`. -/
theorem c8_emptyBody_noop_witness :
    (∀ item ∈ encodeRequestItems c8req c8opts, item.output = .B64) ∧
    ∃ req', encodeRequest idEngine c8req c8opts = .ok req' ∧
      headersGet req'.headers MTE_RELAY_HEADER =
        some ⟨formatMteRelayHeader ⟨.MKE, true, false, false,
          "c".data, "p".data⟩⟩ := by
  have h := c8_emptyBody_noop idEngine c8req c8opts [.str "p"] rfl rfl
  exact ⟨h.1, h.2.2⟩

/-- C7 (amended).  `encodeRequest` performs no URL-length check: whenever
the engine call succeeds and URL encoding is enabled, the call returns a
request whose URL is `origin + "/" + encodeURIComponent(first engine
output)` unconditionally, however long it is. -/
theorem c7_noLengthCheck (engine : Engine) (req : JsRequest)
    (opts : EncodeRequestOptions) (rs : List JsData)
    (hurl : opts.encodeUrl.getD true = true)
    (hengine : engine.encode
        ("encoder." ++ opts.originId ++ "." ++ opts.pairId) opts.type
        (encodeRequestItems req opts) = .ok rs) :
    ∃ req', encodeRequest engine req opts = .ok req' ∧
      req'.url = ⟨req.url.origin,
        "/" ++ encodeURIComponent ((rs.getD 0 (.str "")).asString), ""⟩ := by
  unfold encodeRequest
  rw [hengine]
  by_cases hbag : 0 < (encodeRequestHeadersPrep req opts).1.length <;>
    simp [hurl, hbag]

/-- 3000 letters `a`. -/
def c7bigA : String := ⟨List.replicate 3000 'a'⟩

/-- Request whose route is 3000 characters long. -/
def c7req : JsRequest :=
  ⟨⟨"https://x", ⟨'/' :: List.replicate 3000 'a'⟩, ""⟩, "GET", [], none,
    "include"⟩

/-- Options used with `c7req`. -/
def c7opts : EncodeRequestOptions := ⟨"c", "o", "p", .MKE, none, none⟩

theorem c7_flatMap_replicate_a (n : Nat) :
    (List.replicate n 'a').flatMap (fun c =>
      if uriUnreserved c then [c]
      else (utf8Bytes c).flatMap percentByte) = List.replicate n 'a' := by
  induction n with
  | zero => rfl
  | succ n ih =>
    rw [List.replicate_succ, List.flatMap_cons, ih]
    have ha : uriUnreserved 'a' = true := by decide
    rw [ha]
    rfl

theorem c7_route : encodeRequestRoute c7req = c7bigA := by
  show (⟨('/' :: List.replicate 3000 'a' : List Char).drop 1⟩ : String) ++
    "" = c7bigA
  rw [List.drop_succ_cons, List.drop_zero, String.append_empty]
  rfl

theorem c7_items : encodeRequestItems c7req c7opts =
    [⟨.str c7bigA, .B64⟩] := by
  unfold encodeRequestItems encodeRequestHeadersPrep
  rw [c7_route]
  rfl

/-- C7 (counterexample).  The claim says an encoded route longer than 2048
characters raises a length error before sending; instead `encodeRequest`
succeeds and returns the oversized URL (here 3010 characters). -/
theorem c7_counterexample :
    ∃ req', encodeRequest idEngine c7req c7opts = .ok req' ∧
      2048 < req'.url.href.length := by
  have hengine : idEngine.encode
      ("encoder." ++ c7opts.originId ++ "." ++ c7opts.pairId) c7opts.type
      (encodeRequestItems c7req c7opts) = .ok [.str c7bigA] := by
    rw [c7_items]
    rfl
  obtain ⟨req', hok, hu⟩ :=
    c7_noLengthCheck idEngine c7req c7opts [.str c7bigA] rfl hengine
  refine ⟨req', hok, ?_⟩
  rw [hu]
  have henc : encodeURIComponent c7bigA = c7bigA := by
    show (⟨(List.replicate 3000 'a').flatMap _⟩ : String) = c7bigA
    rw [c7_flatMap_replicate_a]
    rfl
  have hA : c7bigA.length = 3000 :=
    List.length_replicate 3000 'a' 
  show 2048 <
    (("https://x" : String) ++ ("/" ++ encodeURIComponent
      (([JsData.str c7bigA].getD 0 (.str "")).asString)) ++ "").length
  rw [show ([JsData.str c7bigA].getD 0 (.str "")).asString = c7bigA from rfl]
  rw [henc]
  rw [String.length_append, String.length_append, String.length_append]
  rw [hA]
  decide

/-- Witness for the amended C7 theorem at the same concrete oversized
request. -/
theorem c7_noLengthCheck_witness :
    ∃ req', encodeRequest idEngine c7req c7opts = .ok req' ∧
      req'.url = ⟨c7req.url.origin,
        "/" ++ encodeURIComponent
          (([JsData.str c7bigA].getD 0 (.str "")).asString), ""⟩ :=
  c7_noLengthCheck idEngine c7req c7opts [.str c7bigA] rfl
    (by rw [c7_items]; rfl)

/-! ## Bounded retry (src/unnamed/part_001, `sendMteRequest` lines
96-253; src/unnamed/part_003, `deletePairIdFromQueue` lines 127-139)

The try block of `sendMteRequest` (validation, polling, pair acquisition,
encode, fetch, decode — all network and engine I/O) is abstracted as an
oracle giving, per invocation, the local `pairId` variable at catch time
(`""` until line 177 assigns it), the pairId-queue cache at catch time,
and the outcome.  The catch-block control flow of lines 220-253 is
translated directly: a 566 MteRelayError resets the origin to pending,
drops the clientId and retries once with `revalidateServer`; any other
MteRelayError first calls `deletePairIdFromQueue` — which itself throws
when the origin has no queue or the pairId is not in it, aborting the
catch block so that this error propagates with no replacement pairing and
no retry — and only when the eviction succeeds fires a one-pair
replacement pairing and retries once; the retry runs with
`isLastAttempt`, so its failures propagate; non-MteRelay errors propagate
immediately. -/

/-- Outcome of one execution of the try block. -/
inductive AttemptOutcome where
  | success (resp : Nat)
  | relayError (status : Nat)
  | plainError (msg : String)
deriving DecidableEq, Repr

/-- The `requestOptions` argument (part_001 lines 100-103); the absent
argument of the first call defaults both fields to false (JS
`undefined?.field` is falsy). -/
structure SendReqOptions where
  isLastAttempt : Bool
  revalidateServer : Bool
deriving DecidableEq, Repr

/-- Observable side effects of one `sendMteRequest` activation. -/
inductive RetryAction where
  | attemptRun (idx : Nat) (revalidate : Bool)
  | resetPendingAndDropClientId
  | evictPair (pairId : String)
  | repairOne
deriving DecidableEq, Repr

/-- `prefixKey` (part_003 lines 141-143). -/
def pairIdsPrefixKey (key : String) : String := "pairids:" ++ key

/-- `deletePairIdFromQueue` (part_003 lines 127-139): looks the queue up
under the prefixed key and throws when it is absent; throws when
`indexOf(pairId)` is -1; otherwise splices the first occurrence out and
stores the queue back.  Both throw paths leave the cache unchanged. -/
def deletePairIdFromQueue (cache : String → Option (List String))
    (origin pairId : String) :
    Except String Unit × (String → Option (List String)) :=
  match cache (pairIdsPrefixKey origin) with
  | none => (.error ("No queue found for origin " ++ origin ++ "."), cache)
  | some queue =>
    if pairId ∈ queue then
      (.ok (), mapSet cache (pairIdsPrefixKey origin) (queue.erase pairId))
    else
      (.error ("No pairId found for origin " ++ origin ++ "."), cache)

/-- What one run of the try block leaves for the catch block: the value
of the local `pairId` (part_001 line 105: initialised to `""`, assigned
only by line 177), the pairId-queue cache as the try block left it, and
the outcome. -/
structure AttemptView where
  pairId : String
  queueCache : String → Option (List String)
  outcome : AttemptOutcome

/-- `sendMteRequest` (part_001 lines 96-253) as a function of the attempt
oracle: returns the settled result and the trace of attempts and recovery
actions.  The non-566 MteRelayError branch runs `deletePairIdFromQueue`
on the catch-time queue cache; its error aborts the catch block, so the
call settles with that error, with no replacement pairing and no
retry. -/
def sendMteRequest (attempt : Nat → AttemptView) (origin : String)
    (k : Nat) (ro : SendReqOptions) : Except String Nat × List RetryAction :=
  let view := attempt k
  let tr₀ : List RetryAction := [.attemptRun k ro.revalidateServer]
  match view.outcome with
  | .success r => (.ok r, tr₀)
  | .relayError s =>
    if s = 566 then
      let acts := tr₀ ++ [RetryAction.resetPendingAndDropClientId]
      if _hLast : ro.isLastAttempt then
        (.error "Origin is not an MTE Relay server.", acts)
      else
        let rec' := sendMteRequest attempt origin (k + 1) ⟨true, true⟩
        (rec'.1, acts ++ rec'.2)
    else
      match (deletePairIdFromQueue view.queueCache origin view.pairId).1 with
      | .error e => (.error e, tr₀)
      | .ok _ =>
        let acts := tr₀ ++
          [RetryAction.evictPair view.pairId, RetryAction.repairOne]
        if _hLast : ro.isLastAttempt then
          (.error ("MteRelayError " ++ toString s), acts)
        else
          let rec' := sendMteRequest attempt origin (k + 1) ⟨true, false⟩
          (rec'.1, acts ++ rec'.2)
  | .plainError m => (.error m, tr₀)
termination_by (if ro.isLastAttempt then 0 else 1)
decreasing_by
  · simp [_hLast]
  · simp [_hLast]

/-- Number of try-block executions recorded in a trace. -/
def attemptCount (tr : List RetryAction) : Nat :=
  tr.countP fun a =>
    match a with
    | .attemptRun _ _ => true
    | _ => false

theorem sendMteRequest_last (attempt : Nat → AttemptView) (origin : String)
    (k : Nat) (ro : SendReqOptions) (hl : ro.isLastAttempt = true) :
    attemptCount (sendMteRequest attempt origin k ro).2 = 1 ∧
    (∀ s, (attempt k).outcome = .relayError s →
      ∃ m, (sendMteRequest attempt origin k ro).1 = .error m) ∧
    (∀ m, (attempt k).outcome = .plainError m →
      (sendMteRequest attempt origin k ro).1 = .error m) ∧
    (∀ r, (attempt k).outcome = .success r →
      (sendMteRequest attempt origin k ro).1 = .ok r) := by
  cases hout : (attempt k).outcome with
  | success r =>
    refine ⟨?_, ?_, ?_, ?_⟩ <;>
      simp [sendMteRequest, hout, attemptCount]
  | relayError s =>
    by_cases h5 : s = 566
    · subst h5
      refine ⟨?_, ?_, ?_, ?_⟩ <;>
        simp [sendMteRequest, hout, hl, attemptCount]
    · cases hdel : (deletePairIdFromQueue (attempt k).queueCache origin
          (attempt k).pairId).1 with
      | error e =>
        refine ⟨?_, ?_, ?_, ?_⟩ <;>
          simp [sendMteRequest, hout, hl, h5, hdel, attemptCount]
      | ok u =>
        refine ⟨?_, ?_, ?_, ?_⟩ <;>
          simp [sendMteRequest, hout, hl, h5, hdel, attemptCount]
  | plainError m =>
    refine ⟨?_, ?_, ?_, ?_⟩ <;>
      simp [sendMteRequest, hout, attemptCount]

/-- Oracle for the counterexample: the try block fails with a non-566
MteRelayError before pair acquisition (e.g. the probe of
`validateRemoteIsMteRelay` answers an MTE error status, part_001 lines
136-139), so the catch block sees `pairId = ""` and an origin that never
got a queue. -/
def c3failOracle : Nat → AttemptView :=
  fun _ => ⟨"", fun _ => none, .relayError 559⟩

/-- C3, counterexample.  A protocol-classified failure with no automatic
retry: a non-566 MteRelayError raised before pair acquisition reaches the
catch block with `pairId = ""` and no queue stored for the origin, so the
eviction call `deletePairIdFromQueue` itself throws; the call settles
with that queue error after exactly one attempt — no replacement pairing
and no retry — contradicting the claim that every MteRelayError triggers
exactly one automatic retry of the whole call. -/
theorem c3_counterexample :
    sendMteRequest c3failOracle "https://api.example.com" 0
        ⟨false, false⟩ =
      (.error "No queue found for origin https://api.example.com.",
        [.attemptRun 0 false]) ∧
    attemptCount (sendMteRequest c3failOracle "https://api.example.com" 0
        ⟨false, false⟩).2 = 1 := by
  constructor <;>
    simp [sendMteRequest, c3failOracle, deletePairIdFromQueue,
      pairIdsPrefixKey, attemptCount]

/-- C3 (amended).  Per call: a success returns directly; a non-protocol
error propagates immediately with no retry and no recovery action; a 566
protocol error resets the origin and retries exactly once with full
revalidation; any other protocol error first evicts the acquired pair —
when the eviction succeeds (the pairId is in the origin's stored queue) a
one-pair replacement pairing is fired and the call is retried exactly
once, but when `deletePairIdFromQueue` itself throws (no queue for the
origin, or the pairId absent, as after a failure that precedes pair
acquisition) that error surfaces with no replacement pairing and no
retry; the retry runs as the last attempt, so a second failure of either
kind surfaces to the caller and at most two attempts ever run. -/
theorem c3_retry_behavior (attempt : Nat → AttemptView) (origin : String) :
    (attemptCount (sendMteRequest attempt origin 0 ⟨false, false⟩).2 ≤ 2) ∧
    (∀ r, (attempt 0).outcome = .success r →
      sendMteRequest attempt origin 0 ⟨false, false⟩ =
        (.ok r, [.attemptRun 0 false])) ∧
    (∀ m, (attempt 0).outcome = .plainError m →
      sendMteRequest attempt origin 0 ⟨false, false⟩ =
        (.error m, [.attemptRun 0 false])) ∧
    ((attempt 0).outcome = .relayError 566 →
      (sendMteRequest attempt origin 0 ⟨false, false⟩).2 =
        [.attemptRun 0 false, .resetPendingAndDropClientId] ++
          (sendMteRequest attempt origin 1 ⟨true, true⟩).2 ∧
      (sendMteRequest attempt origin 0 ⟨false, false⟩).1 =
        (sendMteRequest attempt origin 1 ⟨true, true⟩).1 ∧
      attemptCount (sendMteRequest attempt origin 1 ⟨true, true⟩).2 = 1) ∧
    (∀ s, (attempt 0).outcome = .relayError s → s ≠ 566 →
      (deletePairIdFromQueue (attempt 0).queueCache origin
          (attempt 0).pairId).1 = .ok () →
      (sendMteRequest attempt origin 0 ⟨false, false⟩).2 =
        [.attemptRun 0 false, .evictPair (attempt 0).pairId, .repairOne] ++
          (sendMteRequest attempt origin 1 ⟨true, false⟩).2 ∧
      (sendMteRequest attempt origin 0 ⟨false, false⟩).1 =
        (sendMteRequest attempt origin 1 ⟨true, false⟩).1 ∧
      attemptCount (sendMteRequest attempt origin 1 ⟨true, false⟩).2 = 1) ∧
    (∀ s e, (attempt 0).outcome = .relayError s → s ≠ 566 →
      (deletePairIdFromQueue (attempt 0).queueCache origin
          (attempt 0).pairId).1 = .error e →
      sendMteRequest attempt origin 0 ⟨false, false⟩ =
        (.error e, [.attemptRun 0 false])) ∧
    (∀ s, (attempt 1).outcome = .relayError s →
      (∃ m, (sendMteRequest attempt origin 1 ⟨true, true⟩).1 = .error m) ∧
      (∃ m, (sendMteRequest attempt origin 1 ⟨true, false⟩).1 = .error m)) := by
  have hlastT := sendMteRequest_last attempt origin 1 ⟨true, true⟩ rfl
  have hlastF := sendMteRequest_last attempt origin 1 ⟨true, false⟩ rfl
  refine ⟨?_, ?_, ?_, ?_, ?_, ?_, ?_⟩
  · cases hout : (attempt 0).outcome with
    | success r => simp [sendMteRequest, hout, attemptCount]
    | relayError s =>
      by_cases h5 : s = 566
      · subst h5
        have htr : (sendMteRequest attempt origin 0 ⟨false, false⟩).2 =
            [.attemptRun 0 false, .resetPendingAndDropClientId] ++
              (sendMteRequest attempt origin 1 ⟨true, true⟩).2 := by
          simp [sendMteRequest, hout]
        rw [htr]
        have h1 := hlastT.1
        simp only [attemptCount, List.countP_append] at h1 ⊢
        simp only [h1]
        simp [List.countP_cons]
      · cases hdel : (deletePairIdFromQueue (attempt 0).queueCache origin
            (attempt 0).pairId).1 with
        | error e => simp [sendMteRequest, hout, h5, hdel, attemptCount]
        | ok u =>
          have htr : (sendMteRequest attempt origin 0 ⟨false, false⟩).2 =
              [.attemptRun 0 false, .evictPair (attempt 0).pairId,
                .repairOne] ++
                (sendMteRequest attempt origin 1 ⟨true, false⟩).2 := by
            simp [sendMteRequest, hout, h5, hdel]
          rw [htr]
          have h1 := hlastF.1
          simp only [attemptCount, List.countP_append] at h1 ⊢
          simp only [h1]
          simp [List.countP_cons]
    | plainError m => simp [sendMteRequest, hout, attemptCount]
  · intro r hout
    simp [sendMteRequest, hout]
  · intro m hout
    simp [sendMteRequest, hout]
  · intro hout
    refine ⟨?_, ?_, hlastT.1⟩ <;> simp [sendMteRequest, hout]
  · intro s hout h5 hdel
    refine ⟨?_, ?_, hlastF.1⟩ <;> simp [sendMteRequest, hout, h5, hdel]
  · intro s e hout h5 hdel
    simp [sendMteRequest, hout, h5, hdel]
  · intro s hout
    exact ⟨hlastT.2.1 s hout, hlastF.2.1 s hout⟩

/-- Concrete oracle for the amended theorem: the first attempt acquires
pair `p0` from a two-element queue and fails with protocol status 560;
the retry succeeds. -/
def c3okOracle : Nat → AttemptView :=
  fun k =>
    ⟨"p0",
     fun key =>
       if key = "pairids:https://api.example.com" then some ["p0", "p1"]
       else none,
     if k = 0 then .relayError 560 else .success 7⟩

/-- Witness for the amended C3: at most two attempts, and a pair-specific
failure whose eviction succeeds is settled by the single retry's
result. -/
theorem c3_retry_behavior_witness :
    attemptCount (sendMteRequest c3okOracle "https://api.example.com" 0
        ⟨false, false⟩).2 ≤ 2 ∧
    (sendMteRequest c3okOracle "https://api.example.com" 0
        ⟨false, false⟩).1 =
      (sendMteRequest c3okOracle "https://api.example.com" 1
        ⟨true, false⟩).1 :=
  ⟨(c3_retry_behavior c3okOracle "https://api.example.com").1,
   ((c3_retry_behavior c3okOracle "https://api.example.com").2.2.2.2.1 560
      rfl (by decide) (by rfl)).2.1⟩

/-! ## Pairing atomicity (src/src/index.ts lines 111-142 and 293-381,
src/unnamed/part_007 lines 83-128)

The WASM handle pool, entropy derivation and network calls are abstracted:
each per-pair `instantiate` call gets a success flag and a state blob, the
pairing POST an oracle result.  What is modelled exactly is the order of
state commits: `instantiateEncoder` saves the encoder state and then
immediately enqueues the pairId — before the decoder of the same pair is
even attempted — and nothing removes queue entries when a later step
throws. -/

/-- `instantiateEncoder` (part_007 lines 83-102): on engine success, save
the encoder state under `encoder.<origin>.<pairId>` and append the pairId
to the origin's queue; on failure throw, with no state written. -/
def instantiateEncoder (ok : Bool) (blob : String) (cs : ClientCaches)
    (origin pairId : String) : Except String Unit × ClientCaches :=
  if ok then
    let cs₁ := { cs with stateCache := mapSet cs.stateCache ("encoder." ++ origin ++ "." ++ pairId) blob }
    (.ok (), { cs₁ with records := addPairIdToQueue cs₁.records origin pairId })
  else (.error "MTE Status was not successful.", cs)

/-- `instantiateDecoder` (part_007 lines 113-128): on engine success, save
the decoder state under `decoder.<origin>.<pairId>`; no queue effect. -/
def instantiateDecoder (ok : Bool) (blob : String) (cs : ClientCaches)
    (origin pairId : String) : Except String Unit × ClientCaches :=
  if ok then
    (.ok (), { cs with stateCache := mapSet cs.stateCache ("decoder." ++ origin ++ "." ++ pairId) blob })
  else (.error "MTE Status was not successful.", cs)

/-- One entry of the pairing POST's JSON response (index.ts lines
342-348). -/
structure PairResponse where
  pairId : String
  encoderSecret : String
  encoderNonce : String
  decoderSecret : String
  decoderNonce : String
deriving DecidableEq, Repr

/-- The per-pair loop of `pairWithOrigin` (index.ts lines 350-380):
instantiate the encoder then the decoder of each returned pair, stopping
at the first thrown error.  `numberOfPairs` bounds the locally generated
`initValues`/`kyber` arrays; a response longer than that crashes on the
`undefined` access (a plain TypeError). -/
def instantiatePairs (encOk decOk : Nat → Bool) (blob : String)
    (origin : String) (numberOfPairs : Nat) :
    Nat → List PairResponse → ClientCaches →
    Except String Unit × ClientCaches
  | _, [], cs => (.ok (), cs)
  | j, pr :: rest, cs =>
    if j < numberOfPairs then
      match instantiateEncoder (encOk j) blob cs origin pr.pairId with
      | (.error e, cs₁) => (.error e, cs₁)
      | (.ok _, cs₁) =>
        match instantiateDecoder (decOk j) blob cs₁ origin pr.pairId with
        | (.error e, cs₂) => (.error e, cs₂)
        | (.ok _, cs₂) =>
          instantiatePairs encOk decOk blob origin numberOfPairs
            (j + 1) rest cs₂
    else (.error "TypeError: undefined", cs)

/-- `pairWithOrigin` (index.ts lines 293-381): require a client id, issue
the pairing POST (oracle), and run the per-pair instantiation loop. -/
def pairWithOrigin (clientId : Option String)
    (postResult : Except String (List PairResponse))
    (encOk decOk : Nat → Bool) (blob : String) (cs : ClientCaches)
    (origin : String) (numberOfPairs : Nat) :
    Except String Unit × ClientCaches :=
  match clientId with
  | none => (.error "Client ID is not set.", cs)
  | some _ =>
    match postResult with
    | .error e => (.error e, cs)
    | .ok pairResponseData =>
      instantiatePairs encOk decOk blob origin numberOfPairs
        0 pairResponseData cs

/-- Probe (`validateRemoteIsMteRelay`) outcome, abstracted. -/
inductive ProbeOutcome where
  | mteStatus (s : Nat)
  | notRelay
  | ok (clientId : String)
deriving DecidableEq, Repr

/-- The validate-and-pair fragment of `sendMteRequest` (index.ts lines
111-142): a probe failure carrying an MTE status is rethrown with no
status change; a non-relay probe failure marks the origin `invalid`; a
successful probe stores the clientId with status `pending`, then
`pairWithOrigin` runs — its failure marks the origin `invalid` (keeping
whatever the loop already committed), its success marks it `paired`. -/
def validateAndPair (probe : ProbeOutcome)
    (postResult : Except String (List PairResponse))
    (encOk decOk : Nat → Bool) (blob : String) (cs : ClientCaches)
    (origin : String) (numberOfPairs : Nat) :
    Except String Unit × ClientCaches :=
  match probe with
  | .mteStatus s => (.error ("MteRelayError " ++ toString s), cs)
  | .notRelay =>
    (.error "Origin is not an MTE Relay server.", { cs with records := (setRemoteStatus cs.records origin .invalid none).2 })
  | .ok clientId =>
    let cs₁ := { cs with records := (setRemoteStatus cs.records origin .pending (some clientId)).2 }
    match pairWithOrigin (some clientId) postResult encOk decOk blob cs₁
        origin numberOfPairs with
    | (.error e, cs₂) =>
      (.error e, { cs₂ with records := (setRemoteStatus cs₂.records origin .invalid none).2 })
    | (.ok _, cs₂) =>
      (.ok (), { cs₂ with records := (setRemoteStatus cs₂.records origin .paired (some clientId)).2 })

theorem addPairIdToQueue_cached {rs : OriginRecordsState}
    {origin p : String} {r : RemoteRecord} (h : rs.cache origin = some r) :
    (addPairIdToQueue rs origin p).cache origin =
      some { r with pairIdQueue := r.pairIdQueue ++ [p] } := by
  simp [addPairIdToQueue, getRemoteRecordByOrigin_cached h, mapSet_self]

theorem setRemoteStatus_cached_none {rs : OriginRecordsState}
    {origin : String} {st : OriginStatus} {r : RemoteRecord}
    (h : rs.cache origin = some r) :
    (setRemoteStatus rs origin st none).2.cache origin =
      some { r with status := st } := by
  simp [setRemoteStatus, getRemoteRecordByOrigin_cached h, mapSet_self]

theorem setRemoteStatus_cached_some {rs : OriginRecordsState}
    {origin c : String} {st : OriginStatus} {r : RemoteRecord}
    (h : rs.cache origin = some r) :
    (setRemoteStatus rs origin st (some c)).2.cache origin =
      some { r with status := st, clientId := some c } := by
  simp [setRemoteStatus, getRemoteRecordByOrigin_cached h, mapSet_self]

theorem instantiatePairs_queue (encOk decOk : Nat → Bool)
    (blob origin : String) (N : Nat) :
    ∀ (data : List PairResponse) (j : Nat) (cs : ClientCaches)
      (r : RemoteRecord), cs.records.cache origin = some r →
      ∃ k, k ≤ data.length ∧
        ((instantiatePairs encOk decOk blob origin N j data cs).2.records.cache
            origin =
          some { r with pairIdQueue :=
            r.pairIdQueue ++ (data.take k).map (·.pairId) }) ∧
        ((instantiatePairs encOk decOk blob origin N j data cs).1 =
            .ok () → k = data.length) := by
  intro data
  induction data with
  | nil =>
    intro j cs r h
    refine ⟨0, by simp, ?_, fun _ => rfl⟩
    simp [instantiatePairs, h]
  | cons pr rest ih =>
    intro j cs r h
    by_cases hj : j < N
    · by_cases he : encOk j
      · have hE : cs.records.cache origin = some r := h
        by_cases hd : decOk j
        · obtain ⟨k, hk, hq, hok⟩ := ih (j + 1)
            { records := addPairIdToQueue cs.records origin pr.pairId,
              stateCache := mapSet
                (mapSet cs.stateCache
                  ("encoder." ++ origin ++ "." ++ pr.pairId) blob)
                ("decoder." ++ origin ++ "." ++ pr.pairId) blob }
            { r with pairIdQueue := r.pairIdQueue ++ [pr.pairId] }
            (addPairIdToQueue_cached h)
          have hstep : instantiatePairs encOk decOk blob origin N j
              (pr :: rest) cs = instantiatePairs encOk decOk blob origin N
              (j + 1) rest
              { records := addPairIdToQueue cs.records origin pr.pairId,
                stateCache := mapSet
                  (mapSet cs.stateCache
                    ("encoder." ++ origin ++ "." ++ pr.pairId) blob)
                  ("decoder." ++ origin ++ "." ++ pr.pairId) blob } := by
            simp [instantiatePairs, hj, he, hd, instantiateEncoder,
              instantiateDecoder]
          refine ⟨k + 1, by simpa using Nat.succ_le_succ hk, ?_, ?_⟩
          · rw [hstep, hq]
            simp [List.take_succ_cons, List.append_assoc]
          · intro hres
            rw [hstep] at hres
            simp [hok hres]
        · refine ⟨1, by simp, ?_, ?_⟩
          · have hstep : (instantiatePairs encOk decOk blob origin N j
                (pr :: rest) cs).2 =
                { records := addPairIdToQueue cs.records origin pr.pairId,
                  stateCache := mapSet cs.stateCache
                    ("encoder." ++ origin ++ "." ++ pr.pairId) blob } := by
              simp [instantiatePairs, hj, he, hd, instantiateEncoder,
                instantiateDecoder]
            rw [hstep]
            simpa using addPairIdToQueue_cached h
          · intro hres
            simp [instantiatePairs, hj, he, hd, instantiateEncoder,
              instantiateDecoder] at hres
      · refine ⟨0, by simp, ?_, ?_⟩
        · have hstep : (instantiatePairs encOk decOk blob origin N j
              (pr :: rest) cs).2 = cs := by
            simp [instantiatePairs, hj, he, instantiateEncoder]
          rw [hstep]
          simpa using h
        · intro hres
          simp [instantiatePairs, hj, he, instantiateEncoder] at hres
    · refine ⟨0, by simp, ?_, ?_⟩
      · have hstep : (instantiatePairs encOk decOk blob origin N j
            (pr :: rest) cs).2 = cs := by
          simp [instantiatePairs, hj]
        rw [hstep]
        simpa using h
      · intro hres
        simp [instantiatePairs, hj] at hres

/-- C4 (amended).  A failing pairing attempt aborts and marks the origin
`invalid` (except a probe failure carrying an MTE protocol status, which
is rethrown for the retry logic without a status change), and nothing is
enqueued by probe or POST failures; but a per-pair instantiation failure
leaves every pairId whose encoder step completed before the failure
enqueued: the final queue is the old queue extended by a prefix of the
attempt's pairIds (the whole list exactly when pairing succeeded, in
which case the origin is `paired`). -/
theorem c4_pairingFailure_effects (probe : ProbeOutcome)
    (postResult : Except String (List PairResponse))
    (encOk decOk : Nat → Bool) (blob : String) (cs : ClientCaches)
    (origin : String) (N : Nat) (r : RemoteRecord)
    (hrec : cs.records.cache origin = some r) :
    (∀ s, probe = .mteStatus s →
      (validateAndPair probe postResult encOk decOk blob cs origin N) =
        (.error ("MteRelayError " ++ toString s), cs)) ∧
    (probe = .notRelay →
      (validateAndPair probe postResult encOk decOk blob cs origin N).1 =
        .error "Origin is not an MTE Relay server." ∧
      (validateAndPair probe postResult encOk decOk blob cs origin
          N).2.records.cache origin =
        some { r with status := .invalid }) ∧
    (∀ cid e, probe = .ok cid → postResult = .error e →
      (validateAndPair probe postResult encOk decOk blob cs origin N).1 =
        .error e ∧
      (validateAndPair probe postResult encOk decOk blob cs origin
          N).2.records.cache origin =
        some { r with status := .invalid, clientId := some cid }) ∧
    (∀ cid data, probe = .ok cid → postResult = .ok data →
      ∃ k, k ≤ data.length ∧
        ∃ r', (validateAndPair probe postResult encOk decOk blob cs origin
            N).2.records.cache origin = some r' ∧
          r'.pairIdQueue = r.pairIdQueue ++ (data.take k).map (·.pairId) ∧
          r'.clientId = some cid ∧
          (∀ e, (validateAndPair probe postResult encOk decOk blob cs
            origin N).1 = .error e → r'.status = .invalid) ∧
          ((validateAndPair probe postResult encOk decOk blob cs origin
            N).1 = .ok () → r'.status = .paired ∧ k = data.length)) := by
  refine ⟨?_, ?_, ?_, ?_⟩
  · intro s hp
    subst hp
    rfl
  · intro hp
    subst hp
    exact ⟨rfl, setRemoteStatus_cached_none hrec⟩
  · intro cid e hp hpost
    subst hp
    subst hpost
    refine ⟨rfl, ?_⟩
    show (setRemoteStatus (setRemoteStatus cs.records origin .pending
      (some cid)).2 origin .invalid none).2.cache origin = _
    rw [setRemoteStatus_cached_none (setRemoteStatus_cached_some hrec)]
  · intro cid data hp hpost
    subst hp
    subst hpost
    have hr₁ : (setRemoteStatus cs.records origin .pending
        (some cid)).2.cache origin =
        some { r with status := .pending, clientId := some cid } :=
      setRemoteStatus_cached_some hrec
    obtain ⟨k, hk, hq, hok⟩ := instantiatePairs_queue encOk decOk blob
      origin N data 0
      { cs with records := (setRemoteStatus cs.records origin .pending (some cid)).2 }
      { r with status := .pending, clientId := some cid } hr₁
    rcases hloop : instantiatePairs encOk decOk blob origin N 0 data
      { cs with records := (setRemoteStatus cs.records origin .pending (some cid)).2 } with ⟨res, cs₂⟩
    rw [hloop] at hq hok
    have hvp : validateAndPair (.ok cid) (.ok data) encOk decOk blob cs
        origin N =
        match res with
        | .error e => (.error e, { cs₂ with records := (setRemoteStatus cs₂.records origin .invalid none).2 })
        | .ok _ => (.ok (), { cs₂ with records := (setRemoteStatus cs₂.records origin .paired (some cid)).2 }) := by
      simp [validateAndPair, pairWithOrigin, hloop]
      cases res <;> rfl
    cases res with
    | error e =>
      refine ⟨k, hk, ⟨r.origin, some cid, .invalid,
        r.pairIdQueue ++ (data.take k).map (·.pairId)⟩, ?_, rfl, rfl,
        fun e' _ => rfl, ?_⟩
      · rw [hvp]
        exact setRemoteStatus_cached_none hq
      · intro hcon
        rw [hvp] at hcon
        simp at hcon
    | ok u =>
      refine ⟨k, hk, ⟨r.origin, some cid, .paired,
        r.pairIdQueue ++ (data.take k).map (·.pairId)⟩, ?_, rfl, rfl,
        ?_, ?_⟩
      · rw [hvp]
        exact setRemoteStatus_cached_some hq
      · intro e' hcon
        rw [hvp] at hcon
        simp at hcon
      · intro _
        exact ⟨rfl, hok rfl⟩

/-- Caches with one already-seen origin "o" (as after the initial status
lookup) and an empty pair queue. -/
def c4cs : ClientCaches :=
  ⟨⟨fun k => if k = "o" then some ⟨"o", none, .pending, []⟩ else none,
    ["o"]⟩, fun _ => none⟩

/-- One pairing-response entry for pair "p0". -/
def c4resp : PairResponse := ⟨"p0", "es", "en", "ds", "dn"⟩

/-- C4 (counterexample).  Probe succeeds, the pairing POST succeeds with
one pair, the encoder instantiates (committing state and enqueueing "p0")
and the decoder instantiation fails: the attempt aborts and the origin is
marked `invalid` — but "p0", committed before the failing step, is still
enqueued, contradicting the claim that no such pairId remains in the
queue. -/
theorem c4_counterexample :
    (validateAndPair (.ok "cid") (.ok [c4resp]) (fun _ => true)
      (fun _ => false) "st" c4cs "o" 1).1 =
        .error "MTE Status was not successful." ∧
    ∃ r', (validateAndPair (.ok "cid") (.ok [c4resp]) (fun _ => true)
        (fun _ => false) "st" c4cs "o" 1).2.records.cache "o" = some r' ∧
      r'.status = .invalid ∧ r'.pairIdQueue = ["p0"] := by
  refine ⟨rfl, ⟨⟨"o", some "cid", .invalid, ["p0"]⟩, ?_, rfl, rfl⟩⟩
  rfl

/-- Witness for the amended C4 theorem at the same failing run. -/
theorem c4_pairingFailure_effects_witness :
    ∃ k, k ≤ ([c4resp] : List PairResponse).length ∧
      ∃ r', (validateAndPair (.ok "cid") (.ok [c4resp]) (fun _ => true)
          (fun _ => false) "st" c4cs "o" 1).2.records.cache "o" =
            some r' ∧
        r'.pairIdQueue = ([] : List String) ++
          (([c4resp] : List PairResponse).take k).map (·.pairId) ∧
        r'.clientId = some "cid" ∧
        (∀ e, (validateAndPair (.ok "cid") (.ok [c4resp]) (fun _ => true)
          (fun _ => false) "st" c4cs "o" 1).1 = .error e →
            r'.status = .invalid) ∧
        ((validateAndPair (.ok "cid") (.ok [c4resp]) (fun _ => true)
          (fun _ => false) "st" c4cs "o" 1).1 = .ok () →
            r'.status = .paired ∧ k = ([c4resp] : List PairResponse).length) :=
  (c4_pairingFailure_effects (.ok "cid") (.ok [c4resp]) (fun _ => true)
    (fun _ => false) "st" c4cs "o" 1 ⟨"o", none, .pending, []⟩
    (by decide)).2.2.2 "cid" [c4resp] rfl rfl

end MteRelay
